import Mathlib

/-!
Verification of the rego in-memory key/value server (Go) against its
natural-language specification.  The Go source under `app/` is shallowly
embedded: pure fragments become Lean functions, the wire protocol is a
sequence of characters standing for bytes, stateful handlers pass an
explicit server state, and machine integers are `Int`/`Nat` with explicit
wrap-around where Go's fixed-width arithmetic matters.
-/

namespace Rego

/-! ## Decimal rendering and parsing (Go `fmt` %d and `strconv`) -/

/-- The character for a single decimal digit (0..9). -/
def digitChar (n : Nat) : Char := Char.ofNat (48 + n)

/-- Digit expansion with explicit fuel (structural recursion so that the
kernel can evaluate concrete instances). -/
def natToCharsCore : Nat → Nat → List Char
  | 0, _ => []
  | fuel + 1, n =>
      if n < 10 then [digitChar n]
      else natToCharsCore fuel (n / 10) ++ [digitChar (n % 10)]

/-- Decimal rendering of a natural number, as Go's `fmt` %d prints it
(`n + 1` units of fuel always cover all digits of `n`). -/
def natToChars (n : Nat) : List Char := natToCharsCore (n + 1) n

/-- Decimal rendering of an integer (sign then digits), as `fmt` %d and
`strconv.FormatInt(_, 10)` print it. -/
def intToChars (z : Int) : List Char :=
  if z < 0 then '-' :: natToChars z.natAbs else natToChars z.toNat

/-- Character is an ASCII decimal digit. -/
def isDigitCh (c : Char) : Bool := 48 ≤ c.toNat && c.toNat ≤ 57

/-- Accumulate decimal digits into a natural number. -/
def charsToNat (cs : List Char) : Nat :=
  cs.foldl (fun acc c => acc * 10 + (c.toNat - 48)) 0

/-- Parse an unsigned run of decimal digits (empty or non-digit input fails). -/
def parseNatDigits (cs : List Char) : Option Nat :=
  if cs ≠ [] ∧ cs.all isDigitCh then some (charsToNat cs) else none

/-- Unsigned digit run bounded by the positive 64-bit limit. -/
def parseInt64Pos (ds : List Char) : Option Int :=
  match parseNatDigits ds with
  | some n => if (n : Int) ≤ 2 ^ 63 - 1 then some (n : Int) else none
  | none => none

/-- Negated digit run bounded by the negative 64-bit limit. -/
def parseInt64Neg (ds : List Char) : Option Int :=
  match parseNatDigits ds with
  | some n => if (n : Int) ≤ 2 ^ 63 then some (-(n : Int)) else none
  | none => none

/-- Model of Go `strconv.ParseInt(s, 10, 64)` (and `strconv.Atoi` on a
64-bit platform): optional sign, decimal digits, 64-bit signed range. -/
def parseInt64 (cs : List Char) : Option Int :=
  match cs with
  | [] => none
  | c :: rest =>
      if c = '+' then parseInt64Pos rest
      else if c = '-' then parseInt64Neg rest
      else parseInt64Pos (c :: rest)

/-- Wrap an integer into the signed 64-bit range, as Go `int64` arithmetic
overflows. -/
def wrap64 (z : Int) : Int := (z + 2 ^ 63) % 2 ^ 64 - 2 ^ 63

/-- Go `strings.ToUpper` restricted to ASCII, as command names use. -/
def toUpperCh (c : Char) : Char :=
  if 97 ≤ c.toNat ∧ c.toNat ≤ 122 then Char.ofNat (c.toNat - 32) else c

/-- Uppercase a string (Go `strings.ToUpper` on ASCII data). -/
def toUpperStr (s : String) : String := ⟨s.data.map toUpperCh⟩

/-! ## RESP values (src/app/resp.go)

`RESP` in the source is a struct `{Type, String, Number, Array}`; the values
actually built (via the `New*` constructors) and produced by `Parse` are the
five RESP forms plus the two nulls, captured by this inductive. -/

inductive RESPv where
  | simple (s : String)
  | err (s : String)
  | integer (n : Int)
  | bulk (s : String)
  | nullBulk
  | array (items : List RESPv)
  | nullArray
  | zero

/-- The Go struct's `String` field as read by handlers (`args[i].String`):
set by the simple-string, error and bulk constructors, zero otherwise. -/
def respString : RESPv → String
  | .simple s => s
  | .err s => s
  | .bulk s => s
  | _ => ""

/-- The Go struct's `Array` field (`nil`, read as empty, for non-arrays and
the null array). -/
def respItems : RESPv → List RESPv
  | .array items => items
  | _ => []

/-- Whether the struct's `Type` byte is `Array` (true also for the null
array, which carries `Type = Array`). -/
def isArrayType : RESPv → Bool
  | .array _ => true
  | .nullArray => true
  | _ => false

/-- Whether the struct's `Type` byte is `BulkString` (true also for the
null bulk string). -/
def isBulkType : RESPv → Bool
  | .bulk _ => true
  | .nullBulk => true
  | _ => false

/-- Whether the value is a RESP error reply. -/
def isErr : RESPv → Bool
  | .err _ => true
  | _ => false

def crlf : List Char := ['\r', '\n']

mutual

/-- `RESP.Marshal` (src/app/resp.go): wire encoding of a RESP value.
The zero struct (`RESP{}`, unknown `Type` byte) hits the default case and
encodes to the empty string. -/
def Marshal : RESPv → List Char
  | .simple s => '+' :: (s.data ++ crlf)
  | .err s => '-' :: (s.data ++ crlf)
  | .integer n => ':' :: (intToChars n ++ crlf)
  | .bulk s => '$' :: (natToChars s.data.length ++ crlf ++ s.data ++ crlf)
  | .nullBulk => '$' :: ('-' :: '1' :: crlf)
  | .array items => '*' :: (natToChars items.length ++ crlf ++ MarshalList items)
  | .nullArray => '*' :: ('-' :: '1' :: crlf)
  | .zero => []

/-- Concatenated encodings of the elements of an array. -/
def MarshalList : List RESPv → List Char
  | [] => []
  | v :: vs => Marshal v ++ MarshalList vs

end

mutual

/-- Well-formedness of a RESP value: simple strings and errors carry no
CR/LF; integers and Go slice/string lengths fit in a signed 64-bit int. -/
def wfRESP : RESPv → Bool
  | .simple s => s.data.all (fun c => c ≠ '\r' && c ≠ '\n')
  | .err s => s.data.all (fun c => c ≠ '\r' && c ≠ '\n')
  | .integer n => decide (-(2 ^ 63) ≤ n ∧ n ≤ 2 ^ 63 - 1)
  | .bulk s => decide ((s.data.length : Int) ≤ 2 ^ 63 - 1)
  | .nullBulk => true
  | .array items => decide ((items.length : Int) ≤ 2 ^ 63 - 1) && wfRESPList items
  | .nullArray => true
  | .zero => false

def wfRESPList : List RESPv → Bool
  | [] => true
  | v :: vs => wfRESP v && wfRESPList vs

end

mutual

/-- Structural size of a RESP value, used as parser fuel. -/
def nodes : RESPv → Nat
  | .array items => 1 + nodesList items
  | _ => 1

def nodesList : List RESPv → Nat
  | [] => 0
  | v :: vs => nodes v + nodesList vs

end

/-! ## RESP parser (`Parse` in src/app/resp.go)

`readLine` consumes bytes up to CRLF, failing on a CR not followed by LF or
at end of input, exactly as the source. The recursive parser is indexed by
fuel; any fuel at least the structural size of the parsed value gives the
source's behavior (the source recursion is bounded by the frame itself). -/

def readLine : List Char → Option (List Char × List Char)
  | [] => none
  | c :: rest =>
      if c = '\r' then
        match rest with
        | '\n' :: r => some ([], r)
        | _ => none
      else
        match readLine rest with
        | some (l, r) => some (c :: l, r)
        | none => none

mutual

/-- `Parse`: reads one RESP value from the input, returning it together with
the unconsumed remainder. `none` models a read error, a protocol error, or
a Go runtime panic (negative `make` length). -/
def Parse : Nat → List Char → Option (RESPv × List Char)
  | 0, _ => none
  | _ + 1, [] => none
  | fuel + 1, c :: input =>
      if c = '+' then
        match readLine input with
        | some (line, rest) => some (.simple ⟨line⟩, rest)
        | none => none
      else if c = '-' then
        match readLine input with
        | some (line, rest) => some (.err ⟨line⟩, rest)
        | none => none
      else if c = ':' then
        match readLine input with
        | some (line, rest) =>
            match parseInt64 line with
            | some n => some (.integer n, rest)
            | none => none
        | none => none
      else if c = '$' then
        match readLine input with
        | some (line, rest) =>
            match parseInt64 line with
            | some n =>
                if n = -1 then some (.nullBulk, rest)
                else if n < 0 then none
                else if rest.length < n.toNat then none
                else
                  -- the source reads two bytes after the payload without
                  -- checking that they are CR LF
                  match rest.drop n.toNat with
                  | _ :: _ :: r => some (.bulk ⟨rest.take n.toNat⟩, r)
                  | _ => none
            | none => none
        | none => none
      else if c = '*' then
        match readLine input with
        | some (line, rest) =>
            match parseInt64 line with
            | some n =>
                if n = -1 then some (.nullArray, rest)
                else if n < 0 then none
                else
                  match ParseItems fuel n.toNat rest with
                  | some (items, r) => some (.array items, r)
                  | none => none
            | none => none
        | none => none
      else none
termination_by fuel _ => (fuel, 0)

/-- The element loop of `parseArray`. -/
def ParseItems : Nat → Nat → List Char → Option (List RESPv × List Char)
  | _, 0, input => some ([], input)
  | fuel, n + 1, input =>
      match Parse fuel input with
      | some (v, rest) =>
          match ParseItems fuel n rest with
          | some (vs, r) => some (v :: vs, r)
          | none => none
      | none => none
termination_by fuel n _ => (fuel, n + 1)

end


/-! ## Store (src/app/key-value-store.go)

The two Go maps (`data`, `expiryMap`) become association lists; wall-clock
instants and durations are `Int` nanoseconds (Go `time.Time`/`time.Duration`
resolution).  Reads are modelled as pure observations at an explicit `now`;
the asynchronous lazy deletion and the 100 ms reaper only remove entries
that every read already reports as absent. -/

/-- A stream entry (src/app/stream.go). Go's `map[string]string` of fields
is an insertion-ordered association list here (Go map iteration order is
unspecified; no claim depends on field order). -/
structure Entry where
  id : String
  fields : List (String × String)
deriving DecidableEq

/-- A stored value: Go stores `string` or `*Stream` in an `interface{}`. -/
inductive Value where
  | str (s : String)
  | stream (entries : List Entry)
deriving DecidableEq

def alGet {α : Type} : List (String × α) → String → Option α
  | [], _ => none
  | (k, v) :: rest, key => if k = key then some v else alGet rest key

def alSet {α : Type} : List (String × α) → String → α → List (String × α)
  | [], key, v => [(key, v)]
  | (k, w) :: rest, key, v =>
      if k = key then (key, v) :: rest else (k, w) :: alSet rest key v

def alDel {α : Type} : List (String × α) → String → List (String × α)
  | [], _ => []
  | (k, w) :: rest, key => if k = key then alDel rest key else (k, w) :: alDel rest key

structure Store where
  data : List (String × Value)
  expiryMap : List (String × Int)

/-- `KeyValueStore.Set`: replace the value; a positive expiry duration sets
`now + expiry`, otherwise any existing expiry is removed (deleting an
absent entry is a no-op, so the Go `exists` guard folds into `alDel`). -/
def Store.Set (s : Store) (key : String) (value : Value) (expiry now : Int) : Store :=
  { data := alSet s.data key value
    expiryMap :=
      if expiry > 0 then alSet s.expiryMap key (now + expiry)
      else alDel s.expiryMap key }

/-- `KeyValueStore.Get`: expired keys (strictly past their expiry, Go
`time.Now().After`) read as absent; only string values are returned. -/
def Store.Get (s : Store) (key : String) (now : Int) : Option String :=
  let fromData :=
    match alGet s.data key with
    | some (.str v) => some v
    | _ => none
  match alGet s.expiryMap key with
  | some expiry => if now > expiry then none else fromData
  | none => fromData

/-- `KeyValueStore.GetStream`: symmetric to `Get` for stream values. -/
def Store.GetStream (s : Store) (key : String) (now : Int) : Option (List Entry) :=
  let fromData :=
    match alGet s.data key with
    | some (.stream es) => some es
    | _ => none
  match alGet s.expiryMap key with
  | some expiry => if now > expiry then none else fromData
  | none => fromData

/-- `KeyValueStore.Keys`: all keys except those whose expiry is strictly past. -/
def Store.Keys (s : Store) (now : Int) : List String :=
  (s.data.map (fun kv => kv.1)).filter (fun k =>
    match alGet s.expiryMap k with
    | some expiry => decide (¬ now > expiry)
    | none => true)

/-- `KeyValueStore.Exists`: present and not expired. -/
def Store.Exists (s : Store) (key : String) (now : Int) : Bool :=
  match alGet s.data key with
  | none => false
  | some _ =>
      match alGet s.expiryMap key with
      | some expiry => if now > expiry then false else true
      | none => true

/-- `KeyValueStore.GetType`: `"none"` for a missing or expired key, else the
observed dynamic type. -/
def Store.GetType (s : Store) (key : String) (now : Int) : String :=
  if !(s.Exists key now) then "none"
  else
    match alGet s.data key with
    | some (.str _) => "string"
    | some (.stream _) => "stream"
    | none => "none"

/-! ## Command handlers (src/app/handler.go) -/

/-- ASCII single-quote, used inside wire-compatible error texts. -/
def sq : String := String.mk [Char.ofNat 39]

/-- `ERR wrong number of arguments for '<name>' command`. -/
def arityErr (name : String) : RESPv :=
  .err ("ERR wrong number of arguments for " ++ sq ++ name ++ sq ++ " command")

/-- Go `strings.ToLower` restricted to ASCII. -/
def toLowerCh (c : Char) : Char :=
  if 65 ≤ c.toNat ∧ c.toNat ≤ 90 then Char.ofNat (c.toNat + 32) else c

def toLowerStr (s : String) : String := ⟨s.data.map toLowerCh⟩

def pingCommand (args : List RESPv) : RESPv :=
  match args with
  | [] => .simple "PONG"
  | a :: _ => .bulk (respString a)

def echoCommand (args : List RESPv) : RESPv :=
  match args with
  | [] => arityErr "echo"
  | a :: _ => .bulk (respString a)

/-- The option loop of `setCommand`: scans `PX n`, `EX n`, `NX`, `XX` left to
right, accumulating the expiry duration (nanoseconds; the Go
`time.Duration` multiplication wraps at 64 bits) and the two flags.  A
second conflicting flag, an unknown token, a missing or non-positive or
non-integer TTL value each abort with the matching error text. -/
def scanSetOpts : List RESPv → Int → Bool → Bool → Except String (Int × Bool × Bool)
  | [], expiry, nx, xx => .ok (expiry, nx, xx)
  | o :: rest, expiry, nx, xx =>
      let option := toUpperStr (respString o)
      if option = "PX" then
        match rest with
        | [] => .error "ERR syntax error"
        | a :: rest2 =>
            match parseInt64 (respString a).data with
            | some ms =>
                if ms ≤ 0 then .error "ERR value is not an integer or out of range"
                else scanSetOpts rest2 (wrap64 (ms * 1000000)) nx xx
            | none => .error "ERR value is not an integer or out of range"
      else if option = "EX" then
        match rest with
        | [] => .error "ERR syntax error"
        | a :: rest2 =>
            match parseInt64 (respString a).data with
            | some seconds =>
                if seconds ≤ 0 then .error "ERR value is not an integer or out of range"
                else scanSetOpts rest2 (wrap64 (seconds * 1000000000)) nx xx
            | none => .error "ERR value is not an integer or out of range"
      else if option = "NX" then
        if xx then .error "ERR syntax error" else scanSetOpts rest expiry true xx
      else if option = "XX" then
        if nx then .error "ERR syntax error" else scanSetOpts rest expiry nx true
      else .error "ERR syntax error"

/-- `setCommand`: `SET key value [EX s | PX ms] [NX | XX]`. -/
def setCommand (args : List RESPv) (st : Store) (now : Int) : RESPv × Store :=
  match args with
  | key :: value :: opts =>
      match scanSetOpts opts 0 false false with
      | .error msg => (.err msg, st)
      | .ok (expiry, nx, xx) =>
          if nx && st.Exists (respString key) now then (.nullBulk, st)
          else if !nx && (xx && !(st.Exists (respString key) now)) then (.nullBulk, st)
          else (.simple "OK", st.Set (respString key) (.str (respString value)) expiry now)
  | _ => (arityErr "set", st)

/-- Abstract syntax for the `SET` option grammar
`[EX s | PX ms | NX | XX]…`, used to quantify over option lists. -/
inductive SetOpt where
  | ex (s : String)
  | px (s : String)
  | nx
  | xx

/-- The concrete argument tokens of an option list. -/
def flattenOpts : List SetOpt → List RESPv
  | [] => []
  | .ex s :: rest => .bulk "EX" :: .bulk s :: flattenOpts rest
  | .px s :: rest => .bulk "PX" :: .bulk s :: flattenOpts rest
  | .nx :: rest => .bulk "NX" :: flattenOpts rest
  | .xx :: rest => .bulk "XX" :: flattenOpts rest

/-- An `EX`/`PX` value is valid when it parses as a positive 64-bit
integer; bare flags are always valid. -/
def validOpt : SetOpt → Bool
  | .ex s =>
      match parseInt64 s.data with
      | some n => decide (n > 0)
      | none => false
  | .px s =>
      match parseInt64 s.data with
      | some n => decide (n > 0)
      | none => false
  | .nx => true
  | .xx => true

def hasNX (opts : List SetOpt) : Bool :=
  opts.any (fun o => match o with | .nx => true | _ => false)

def hasXX (opts : List SetOpt) : Bool :=
  opts.any (fun o => match o with | .xx => true | _ => false)

def getCommand (args : List RESPv) (st : Store) (now : Int) : RESPv :=
  match args with
  | [key] =>
      match st.Get (respString key) now with
      | none => .nullBulk
      | some v => .bulk v
  | _ => arityErr "get"

/-- `strings.HasPrefix` on character lists. -/
def startsList (p s : List Char) : Bool := decide (s.take p.length = p)

/-- `strings.HasSuffix(pattern, "*")`. -/
def endsWithStar (s : String) : Bool :=
  match s.data.getLast? with
  | some c => c = '*'
  | none => false

def keysCommand (args : List RESPv) (st : Store) (now : Int) : RESPv :=
  match args with
  | [p] =>
      let pattern := respString p
      let allKeys := st.Keys now
      let matched :=
        if pattern = "*" then allKeys
        else if endsWithStar pattern then
          allKeys.filter (fun k => startsList pattern.data.dropLast k.data)
        else allKeys.filter (fun k => k = pattern)
      .array (matched.map (fun k => .bulk k))
  | _ => arityErr "keys"

def incrCommand (args : List RESPv) (st : Store) (now : Int) : RESPv × Store :=
  match args with
  | [key] =>
      let k := respString key
      match st.Get k now with
      | none => (.integer 1, st.Set k (.str "1") 0 now)
      | some v =>
          match parseInt64 v.data with
          | none => (.err "ERR value is not an integer or out of range", st)
          | some n =>
              let n2 := wrap64 (n + 1)
              (.integer n2, st.Set k (.str (String.mk (intToChars n2))) 0 now)
  | _ => (arityErr "incr", st)

def typeCommand (args : List RESPv) (st : Store) (now : Int) : RESPv :=
  match args with
  | [key] => .simple (st.GetType (respString key) now)
  | _ => arityErr "type"

def configGetCommand (args : List RESPv) (dir dbfilename : String) : RESPv :=
  match args with
  | [] => arityErr "config get"
  | p :: _ =>
      let pattern := toLowerStr (respString p)
      if pattern = "dir" then .array [.bulk "dir", .bulk dir]
      else if pattern = "dbfilename" then .array [.bulk "dbfilename", .bulk dbfilename]
      else if pattern = "*" then
        .array [.bulk "dir", .bulk dir, .bulk "dbfilename", .bulk dbfilename]
      else .array []

def configCommand (args : List RESPv) (dir dbfilename : String) : RESPv :=
  match args with
  | [] => arityErr "config"
  | sub :: rest =>
      let subU := toUpperStr (respString sub)
      if subU = "GET" then configGetCommand rest dir dbfilename
      else .err ("ERR unknown subcommand " ++ sq ++ subU ++ sq ++ ". Try CONFIG GET")

def infoCommand (args : List RESPv) (isReplica : Bool) (replid : String)
    (masterReplOffset : Int) (replicaCount : Nat) : RESPv :=
  match args with
  | [sect] =>
      if toUpperStr (respString sect) ≠ "REPLICATION" then
        .err "ERR only replication section is supported"
      else if isReplica then .bulk "role:slave"
      else
        .bulk ("role:master" ++ "\r\n" ++ "master_replid:" ++ replid ++ "\r\n" ++
          "master_repl_offset:" ++ String.mk (intToChars masterReplOffset) ++ "\r\n" ++
          "connected_slaves:" ++ String.mk (natToChars replicaCount))
  | _ => arityErr "info"

/-- `replconfCommand`: `GETACK` reports the current local offset (clamped at
0 on a replica); `ACK` yields the zero struct, which marshals to nothing;
everything else answers `+OK`. -/
def replconfCommand (args : List RESPv) (offset : Int) (isReplica : Bool) : RESPv :=
  match args with
  | [] => arityErr "replconf"
  | sub :: _ =>
      let subCommand := toUpperStr (respString sub)
      if subCommand = "GETACK" then
        let off := if isReplica ∧ offset < 0 then 0 else offset
        .array [.bulk "REPLCONF", .bulk "ACK", .bulk (String.mk (intToChars off))]
      else if subCommand = "ACK" then .zero
      else .simple "OK"

/-- The hard-coded empty RDB snapshot in `psyncCommand` (88 bytes). -/
def emptyRDBBytes : List Nat :=
  [0x52, 0x45, 0x44, 0x49, 0x53, 0x30, 0x30, 0x31, 0x31, 0xfa, 0x09, 0x72, 0x65, 0x64, 0x69,
   0x73, 0x2d, 0x76, 0x65, 0x72, 0x05, 0x37, 0x2e, 0x32, 0x2e, 0x30, 0xfa, 0x0a, 0x72, 0x65,
   0x64, 0x69, 0x73, 0x2d, 0x62, 0x69, 0x74, 0x73, 0xc0, 0x40, 0xfa, 0x05, 0x63, 0x74, 0x69,
   0x6d, 0x65, 0xc2, 0x6d, 0x08, 0xbc, 0x65, 0xfa, 0x08, 0x75, 0x73, 0x65, 0x64, 0x2d, 0x6d,
   0x65, 0x6d, 0xc2, 0xb0, 0xc4, 0x10, 0x00, 0xfa, 0x08, 0x61, 0x6f, 0x66, 0x2d, 0x62, 0x61,
   0x73, 0x65, 0xc0, 0x00, 0xff, 0xf0, 0x6e, 0x3b, 0xfe, 0xc0, 0xff, 0x5a, 0xa2]

/-- `psyncCommand`: `+FULLRESYNC <id> <offset>` plus the bulk-framed RDB
block (no trailing CRLF) as extra bytes. -/
def psyncCommand (replid : String) (masterReplOffset : Int) : RESPv × List Char :=
  (.simple ("FULLRESYNC " ++ replid ++ " " ++ String.mk (intToChars masterReplOffset)),
   '$' :: (natToChars emptyRDBBytes.length ++ crlf ++ emptyRDBBytes.map Char.ofNat))

/-- `GetAcknowledgedReplicaCount` (src/app/replica.go). -/
def ackCount (replicas : List (Nat × Int)) (targetOffset : Int) : Nat :=
  (replicas.filter (fun r => decide (r.2 ≥ targetOffset))).length

/-- `waitCommand`: parses both integers, answers 0 with no replicas,
otherwise writes `REPLCONF GETACK *` to every replica and polls the
replica table.  In this sequential model the table does not change while
the handler polls, so both the early exit and the timeout exit return
`GetAcknowledgedReplicaCount` of the offset snapshot. -/
def waitCommand (args : List RESPv) (replicas : List (Nat × Int)) (offset : Int) :
    RESPv × List (Nat × List Char) :=
  match args with
  | [a, b] =>
      match parseInt64 (respString a).data with
      | none => (.err "ERR value is not an integer or out of range", [])
      | some _numReplicas =>
          match parseInt64 (respString b).data with
          | none => (.err "ERR value is not an integer or out of range", [])
          | some _timeout =>
              if replicas.isEmpty then (.integer 0, [])
              else
                let getAckBytes := Marshal (.array [.bulk "REPLCONF", .bulk "GETACK", .bulk "*"])
                (.integer (ackCount replicas offset),
                 replicas.map (fun r => (r.1, getAckBytes)))
  | _ => (arityErr "wait", [])

/-! ## Stream ID handling and stream commands (src/app/handler.go) -/

/-- Go `strings.Split(id, "-")`: split on every dash; `""` gives `[""]`. -/
def splitOnDash : List Char → List (List Char)
  | [] => [[]]
  | c :: rest =>
      if c = '-' then [] :: splitOnDash rest
      else
        match splitOnDash rest with
        | seg :: segs => (c :: seg) :: segs
        | [] => [[c]]

/-- `strings.HasSuffix(id, "-*")`: the last two characters are `-` then `*`. -/
def hasDashStar (s : String) : Bool :=
  match s.data.reverse with
  | c1 :: c2 :: _ => c1 = '*' && c2 = '-'
  | _ => false

/-- `parseStreamID`: resolves `*`, `ms-*` and explicit `ms-seq` forms.  Only
the explicit form validates against the current tail `lastID`; the `ms-*`
branch returns before the tail comparison is reached. -/
def parseStreamID (id lastID : String) (now : Int) : Except String (Int × Int × Bool) :=
  if id = "*" then .ok (now, 0, true)
  else if hasDashStar id then
    match parseInt64 id.data.dropLast.dropLast with
    | none => .error "invalid millsencods part"
    | some ms => if ms = 0 then .ok (ms, 1, true) else .ok (ms, 0, true)
  else
    match splitOnDash id.data with
    | [p1, p2] =>
        match parseInt64 p1 with
        | none => .error "invalid millsencods part"
        | some ms =>
            match parseInt64 p2 with
            | none => .error "invalid sequence part"
            | some seq =>
                if ms = 0 ∧ seq = 0 then .error "ID must be greater than 0-0"
                else if lastID ≠ "" then
                  match splitOnDash lastID.data with
                  | [q1, q2] =>
                      match parseInt64 q1 with
                      | none => .error "invalid last milliseconds part"
                      | some lastMs =>
                          match parseInt64 q2 with
                          | none => .error "invalid last sequence part"
                          | some lastSeq =>
                              if ms < lastMs ∨ (ms = lastMs ∧ seq ≤ lastSeq) then
                                .error "ID is not greater than last entry"
                              else .ok (ms, seq, false)
                  | _ => .error "invalid last stream ID format"
                else .ok (ms, seq, false)
    | _ => .error "invalid stream ID format"

/-- The `maxSeq` scan in `xaddCommand` for the `ms-*` form: largest existing
sequence among entries with the same millisecond part (parse failures are
discarded as 0, as the source ignores those errors). -/
def xaddMaxSeq (entries : List Entry) (ms : Int) : Int :=
  entries.foldl (fun maxSeq entry =>
    match splitOnDash entry.id.data with
    | [p1, p2] =>
        if (parseInt64 p1).getD 0 = ms then
          let entrySeq := (parseInt64 p2).getD 0
          if entrySeq > maxSeq then entrySeq else maxSeq
        else maxSeq
    | _ => maxSeq) (-1)

/-- The field-map construction in `xaddCommand` (Go map insertion). -/
def buildFields : List (String × String) → List RESPv → List (String × String)
  | acc, f :: v :: rest => buildFields (alSet acc (respString f) (respString v)) rest
  | acc, _ => acc

/-- `xaddCommand`: `XADD key id field value …`. -/
def xaddCommand (args : List RESPv) (st : Store) (now : Int) : RESPv × Store :=
  if args.length < 3 then (arityErr "xadd", st)
  else if (args.length - 2) % 2 ≠ 0 then (arityErr "xadd", st)
  else
    match args with
    | key :: idArg :: fieldArgs =>
        let keyS := respString key
        let entries := (st.GetStream keyS now).getD []
        let lastID :=
          match entries.getLast? with
          | some e => e.id
          | none => ""
        match parseStreamID (respString idArg) lastID now with
        | .error e =>
            if e = "ID must be greater than 0-0" then
              (.err "ERR The ID specified in XADD must be greater than 0-0", st)
            else if e = "ID is not greater than last entry" then
              (.err "ERR The ID specified in XADD is equal or smaller than the target stream top item", st)
            else (.err "ERR invalid stream ID specified as stream command argument", st)
        | .ok (ms, seq0, autoSeq) =>
            let seq :=
              if autoSeq ∧ hasDashStar (respString idArg) then
                if ms = 0 then 1 else xaddMaxSeq entries ms + 1
              else seq0
            let id :=
              if autoSeq then String.mk (intToChars ms ++ '-' :: intToChars seq)
              else respString idArg
            if entries.any (fun e => e.id = id) then
              (.err "ERR The ID specified in XADD already exists in the target stream", st)
            else
              (.bulk id,
               st.Set keyS (.stream (entries ++ [⟨id, buildFields [] fieldArgs⟩])) 0 now)
    | _ => (arityErr "xadd", st)

def maxInt64 : Int := 2 ^ 63 - 1

/-- `splitStreamID`: an `ms-seq` pair or an error. -/
def splitStreamID (id : String) : Option (Int × Int) :=
  match splitOnDash id.data with
  | [p1, p2] =>
      match parseInt64 p1 with
      | none => none
      | some ms =>
          match parseInt64 p2 with
          | none => none
          | some seq => some (ms, seq)
  | _ => none

/-- `parseRangeID`: `-`, `+`, `$` and one- or two-part IDs for XRANGE/XREAD. -/
def parseRangeID (id : String) (isEnd : Bool) (key : String) (st : Store) (now : Int) :
    Option (Int × Int) :=
  if id = "-" then some (0, 0)
  else if id = "+" then some (maxInt64, maxInt64)
  else if id = "$" then
    if key = "" then none
    else
      match st.GetStream key now with
      | none => some (0, 0)
      | some es =>
          match es.getLast? with
          | none => some (0, 0)
          | some last => splitStreamID last.id
  else
    match splitOnDash id.data with
    | [p] =>
        match parseInt64 p with
        | none => none
        | some ms => if isEnd then some (ms, maxInt64) else some (ms, 0)
    | [p1, p2] =>
        match parseInt64 p1 with
        | none => none
        | some ms =>
            match parseInt64 p2 with
            | none => none
            | some seq => some (ms, seq)
    | _ => none

def compareStreamIDs (ms1 seq1 ms2 seq2 : Int) : Int :=
  if ms1 < ms2 then -1
  else if ms1 > ms2 then 1
  else if seq1 < seq2 then -1
  else if seq1 > seq2 then 1
  else 0

/-- The `[id, [f1, v1, …]]` reply element for one stream entry. -/
def entryToRESP (e : Entry) : RESPv :=
  .array [.bulk e.id,
    .array (e.fields.foldr (fun fv acc => .bulk fv.1 :: .bulk fv.2 :: acc) [])]

def xrangeCommand (args : List RESPv) (st : Store) (now : Int) : RESPv :=
  match args with
  | [key, startA, endA] =>
      let keyS := respString key
      match st.GetStream keyS now with
      | none => .array []
      | some entries =>
          match parseRangeID (respString startA) false keyS st now with
          | none => .err "ERR invalid stream ID specified as stream command argument"
          | some (startMs, startSeq) =>
              match parseRangeID (respString endA) true keyS st now with
              | none => .err "ERR invalid stream ID specified as stream command argument"
              | some (endMs, endSeq) =>
                  .array (entries.filterMap (fun entry =>
                    match splitStreamID entry.id with
                    | none => none
                    | some (ems, eseq) =>
                        if compareStreamIDs startMs startSeq ems eseq ≤ 0 ∧
                            compareStreamIDs ems eseq endMs endSeq ≤ 0 then
                          some (entryToRESP entry)
                        else none))
  | _ => arityErr "xrange"

/-- The per-stream scan of `xreadCommand`: entries strictly greater than the
start ID, or an error for an unparsable start ID. -/
def xreadScan (st : Store) (now : Int) : List (RESPv × RESPv) → Except Unit (List RESPv)
  | [] => .ok []
  | (key, idArg) :: rest => do
      let keyS := respString key
      match parseRangeID (respString idArg) false keyS st now with
      | none => .error ()
      | some (startMs, startSeq) =>
          let tail ← xreadScan st now rest
          match st.GetStream keyS now with
          | none => .ok tail
          | some entries =>
              let streamEntries := entries.filterMap (fun entry =>
                match splitStreamID entry.id with
                | none => none
                | some (ems, eseq) =>
                    if compareStreamIDs startMs startSeq ems eseq < 0 then
                      some (entryToRESP entry)
                    else none)
              if streamEntries.isEmpty then .ok tail
              else .ok (.array [.bulk keyS, .array streamEntries] :: tail)

/-- `xreadCommand`: `XREAD [BLOCK ms] STREAMS k… id…`.  When nothing is
immediately available the source always enters the blocking path (its
`blockMs >= 0` guard is a tautology); in this sequential model, with no
concurrent writer, that path completes by timeout with a null bulk reply
(with `BLOCK 0`, or no `BLOCK`, the source would wait forever). -/
def xreadCommand (args : List RESPv) (st : Store) (now : Int) : RESPv :=
  if args.length < 3 then arityErr "xread"
  else
    let parsedBlock : Except String (Bool × Int × List RESPv) :=
      match args with
      | b :: rest =>
          if toUpperStr (respString b) = "BLOCK" then
            match rest with
            | [] => .error "ERR syntax error"
            | msArg :: rest2 =>
                match parseInt64 (respString msArg).data with
                | none => .error "ERR timeout is not a valid integer or out of range"
                | some ms =>
                    if ms < 0 then .error "ERR timeout is not a valid integer or out of range"
                    else .ok (true, ms, rest2)
          else .ok (false, 0, args)
      | [] => .ok (false, 0, args)
    match parsedBlock with
    | .error msg => .err msg
    | .ok (hasBlock, _blockMs, after) =>
        match after with
        | [] => .err "ERR syntax error"
        | streamsTok :: afterStreams =>
            if toUpperStr (respString streamsTok) ≠ "STREAMS" then .err "ERR syntax error"
            else if afterStreams.length % 2 ≠ 0 then .err "ERR syntax error"
            else
              let numStreams := afterStreams.length / 2
              let keys := afterStreams.take numStreams
              let ids := afterStreams.drop numStreams
              if !hasBlock ∧ ids.any (fun i => respString i = "$") then
                .err ("ERR $ ID is only valid with BLOCK option")
              else
                match xreadScan st now (keys.zip ids) with
                | .error _ => .err "ERR invalid stream ID specified as stream command argument"
                | .ok results =>
                    if results.isEmpty then .nullBulk
                    else .array results

/-! ## Sessions, registry and dispatcher (src/app/main.go, handler.go)

The dispatcher state gathers the source's global singletons: the store, the
per-connection `ClientState`, the replication offset (`serverConfig.offset`,
`currentOffset` and `masterReplOffset` advance in lockstep from 0 on a
primary, so one field models all three), the replica table, and the bytes
written to replica connections.  Replica writes are modelled as always
succeeding (the error path only removes the failed replica). -/

structure ClientState where
  inTransaction : Bool
  queued : List RESPv

structure ServerState where
  store : Store
  client : ClientState
  offset : Int
  replicas : List (Nat × Int)
  propagated : List (Nat × List Char)
  isReplica : Bool
  replid : String
  dir : String
  dbfilename : String

/-- The command table of `registerCommands` (name present ⇔ registered). -/
def registryNames : List String :=
  ["PING", "ECHO", "SET", "GET", "CONFIG", "KEYS", "INFO", "REPLCONF", "PSYNC",
   "WAIT", "TYPE", "XADD", "XRANGE", "XREAD", "INCR", "MULTI", "EXEC", "DISCARD"]

/-- `Registry.IsWriteCommand`: the write flags of `registerCommands`
(note the source registers MULTI and EXEC as write commands). -/
def isWriteCommand (name : String) : Bool :=
  ["SET", "XADD", "INCR", "MULTI", "EXEC"].contains (toUpperStr name)

/-- `AddReplica` (src/app/replica.go): register a connection once. -/
def AddReplica (s : ServerState) (conn : Nat) : ServerState :=
  if s.replicas.any (fun r => r.1 = conn) then s
  else { s with replicas := s.replicas ++ [(conn, 0)] }

/-- `UpdateReplicaOffset`: set the acked offset of the first matching record. -/
def updateFirstReplica : List (Nat × Int) → Nat → Int → List (Nat × Int)
  | [], _, _ => []
  | r :: rest, conn, off =>
      if r.1 = conn then (conn, off) :: rest else r :: updateFirstReplica rest conn off

def UpdateReplicaOffset (s : ServerState) (conn : Nat) (off : Int) : ServerState :=
  { s with replicas := updateFirstReplica s.replicas conn off }

/-- `IncrementOffset` (src/app/stream_manager.go) together with
`IncrementMasterOffset`: advance the lockstep offset counters. -/
def IncrementOffset (s : ServerState) (bytesCount : Int) : ServerState :=
  { s with offset := s.offset + bytesCount }

/-- `propagateCommand` (src/app/main.go): broadcast the re-marshalled frame
to every replica connection. -/
def propagateCommand (s : ServerState) (cmd : RESPv) : ServerState :=
  if s.replicas.isEmpty then s
  else { s with propagated := s.propagated ++ s.replicas.map (fun r => (r.1, Marshal cmd)) }

/-- `multiCommand`: enter a transaction with an empty queue. -/
def multiCommand (args : List RESPv) (s : ServerState) : RESPv × List Char × ServerState :=
  if args.length > 0 then (arityErr "multi", [], s)
  else (.simple "OK", [], { s with client := ⟨true, []⟩ })

/-- `discardCommand`: clear the transaction state (also when not in one;
the source reads the flag before clearing it). -/
def discardCommand (args : List RESPv) (s : ServerState) : RESPv × List Char × ServerState :=
  if args.length > 0 then (arityErr "discard", [], s)
  else if !s.client.inTransaction then
    (.err "ERR DISCARD without MULTI", [], { s with client := ⟨false, []⟩ })
  else (.simple "OK", [], { s with client := ⟨false, []⟩ })

/-- One queued frame replayed by EXEC (`execCommand`'s loop body):
validation, dispatch through a fresh registry via the supplied handler
function, and — for a write command on a primary — an offset increment by
the REPLY length and the propagation of the queued frame. -/
def execStepWith
    (h : String → List RESPv → Nat → Int → ServerState → RESPv × List Char × ServerState)
    (conn : Nat) (now : Int) (cmd : RESPv) (s : ServerState) : RESPv × ServerState :=
  if !(isArrayType cmd) || (respItems cmd).isEmpty then
    ((.err "ERR invalid command format" : RESPv), s)
  else
    match respItems cmd with
    | [] => ((.err "ERR invalid command format" : RESPv), s)
    | first :: cmdArgs =>
        if !(isBulkType first) then ((.err "ERR command must be a bulk string" : RESPv), s)
        else
          let cmdName := toUpperStr (respString first)
          if !(registryNames.contains cmdName) then
            ((.err ("ERR unknown command " ++ sq ++ cmdName ++ sq) : RESPv), s)
          else
            let r := h cmdName cmdArgs conn now s
            if isWriteCommand cmdName && !r.2.2.isReplica then
              (r.1, propagateCommand (IncrementOffset r.2.2 ((Marshal r.1).length : Int)) cmd)
            else (r.1, r.2.2)

/-- The replay loop of `execCommand` over the snapshot of the queue. -/
def execLoopWith
    (h : String → List RESPv → Nat → Int → ServerState → RESPv × List Char × ServerState)
    (conn : Nat) (now : Int) : List RESPv → ServerState → List RESPv × ServerState
  | [], s => ([], s)
  | cmd :: rest, s =>
      ((execStepWith h conn now cmd s).1 ::
        (execLoopWith h conn now rest (execStepWith h conn now cmd s).2).1,
       (execLoopWith h conn now rest (execStepWith h conn now cmd s).2).2)

/-- Handler dispatch: the body of each registered command.  The EXEC branch
(`execCommand`) snapshots and clears the transaction state — also on the
`EXEC without MULTI` error path — and then hands the snapshot to
`execNest`, the replay continuation supplied by `runHandler`. -/
def dispatchWith
    (execNest : List RESPv → ServerState → RESPv × List Char × ServerState)
    (cmdName : String) (args : List RESPv) (conn : Nat) (now : Int)
    (s : ServerState) : RESPv × List Char × ServerState :=
  if cmdName = "PING" then (pingCommand args, [], s)
  else if cmdName = "ECHO" then (echoCommand args, [], s)
  else if cmdName = "SET" then
    ((setCommand args s.store now).1, [], { s with store := (setCommand args s.store now).2 })
  else if cmdName = "GET" then (getCommand args s.store now, [], s)
  else if cmdName = "CONFIG" then (configCommand args s.dir s.dbfilename, [], s)
  else if cmdName = "KEYS" then (keysCommand args s.store now, [], s)
  else if cmdName = "INFO" then
    (infoCommand args s.isReplica s.replid s.offset s.replicas.length, [], s)
  else if cmdName = "REPLCONF" then (replconfCommand args s.offset s.isReplica, [], s)
  else if cmdName = "PSYNC" then
    ((psyncCommand s.replid s.offset).1, (psyncCommand s.replid s.offset).2, s)
  else if cmdName = "WAIT" then
    ((waitCommand args s.replicas s.offset).1, [],
     { s with propagated := s.propagated ++ (waitCommand args s.replicas s.offset).2 })
  else if cmdName = "TYPE" then (typeCommand args s.store now, [], s)
  else if cmdName = "XADD" then
    ((xaddCommand args s.store now).1, [], { s with store := (xaddCommand args s.store now).2 })
  else if cmdName = "XRANGE" then (xrangeCommand args s.store now, [], s)
  else if cmdName = "XREAD" then (xreadCommand args s.store now, [], s)
  else if cmdName = "INCR" then
    ((incrCommand args s.store now).1, [], { s with store := (incrCommand args s.store now).2 })
  else if cmdName = "MULTI" then multiCommand args s
  else if cmdName = "EXEC" then
    if args.length > 0 then (arityErr "exec", [], s)
    else if !s.client.inTransaction then
      (.err "ERR EXEC without MULTI", [], { s with client := (⟨false, []⟩ : ClientState) })
    else execNest s.client.queued { s with client := (⟨false, []⟩ : ClientState) }
  else if cmdName = "DISCARD" then discardCommand args s
  else (.err "", [], s)

/-- The handler with the EXEC replay loop plugged in.  `fuel` bounds the
EXEC-in-EXEC recursion; the source terminates because EXEC clears the queue
before replaying it (a nested EXEC always sees an empty queue and fails
before recursing), so any positive fuel reproduces the source's behavior on
reachable states. -/
def runHandler : Nat → String → List RESPv → Nat → Int → ServerState →
    RESPv × List Char × ServerState
  | 0, cmdName, args, conn, now, s =>
      dispatchWith (fun _ s1 => (.err "ERR EXEC recursion depth exceeded", [], s1))
        cmdName args conn now s
  | f + 1, cmdName, args, conn, now, s =>
      dispatchWith (fun queued s1 =>
          (.array (execLoopWith (runHandler f) conn now queued s1).1, [],
           (execLoopWith (runHandler f) conn now queued s1).2))
        cmdName args conn now s

/-- Post-reply side effect of `processCommand` for PSYNC: register the
connection as a replica. -/
def processS2 (fuel : Nat) (conn : Nat) (now : Int) (cmdName : String)
    (args : List RESPv) (s : ServerState) : ServerState :=
  if cmdName = "PSYNC" then
    AddReplica (runHandler fuel cmdName args conn now s).2.2 conn
  else (runHandler fuel cmdName args conn now s).2.2

/-- Post-reply side effect for `REPLCONF ACK <n>`: record the replica's
acknowledged offset. -/
def processS3 (fuel : Nat) (conn : Nat) (now : Int) (cmdName : String)
    (args : List RESPv) (s : ServerState) : ServerState :=
  match args with
  | a0 :: a1 :: _ =>
      if cmdName = "REPLCONF" ∧ toUpperStr (respString a0) = "ACK" then
        match parseInt64 (respString a1).data with
        | some off => UpdateReplicaOffset (processS2 fuel conn now cmdName args s) conn off
        | none => processS2 fuel conn now cmdName args s
      else processS2 fuel conn now cmdName args s
  | _ => processS2 fuel conn now cmdName args s

/-- Post-reply side effect for a write command on a primary: increment the
master offset by the REPLY length (plus any extra payload) and broadcast the
original frame. -/
def processS4 (fuel : Nat) (conn : Nat) (now : Int) (frame : RESPv) (cmdName : String)
    (args : List RESPv) (s : ServerState) : ServerState :=
  if isWriteCommand cmdName && !(processS3 fuel conn now cmdName args s).isReplica then
    propagateCommand
      (IncrementOffset (processS3 fuel conn now cmdName args s)
        (((Marshal (runHandler fuel cmdName args conn now s).1).length +
          ((runHandler fuel cmdName args conn now s).2.1).length : Nat) : Int))
      frame
  else processS3 fuel conn now cmdName args s

/-- `processCommand` (src/app/main.go): frame validation, transaction
queueing, registry lookup, handler invocation, and the post-reply side
effects (PSYNC registration, REPLCONF ACK table update, and — for write
commands on a primary — an offset increment by the REPLY length plus the
broadcast of the original frame). -/
def processCommand (fuel : Nat) (conn : Nat) (now : Int) (frame : RESPv)
    (s : ServerState) : RESPv × List Char × ServerState :=
  if !(isArrayType frame) then (.err "ERR invalid command format", [], s)
  else
    match respItems frame with
    | [] => (.err "ERR empty command", [], s)
    | first :: args =>
        if !(isBulkType first) then (.err "ERR command must be a bulk string", [], s)
        else if s.client.inTransaction ∧ toUpperStr (respString first) ≠ "EXEC" ∧
            toUpperStr (respString first) ≠ "MULTI" ∧
            toUpperStr (respString first) ≠ "DISCARD" then
          (.simple "QUEUED", [],
           { s with client := { s.client with queued := s.client.queued ++ [frame] } })
        else if !(registryNames.contains (toUpperStr (respString first))) then
          (.err ("ERR unknown command " ++ sq ++ toUpperStr (respString first) ++ sq), [], s)
        else
          ((runHandler fuel (toUpperStr (respString first)) args conn now s).1,
           (runHandler fuel (toUpperStr (respString first)) args conn now s).2.1,
           processS4 fuel conn now frame (toUpperStr (respString first)) args s)

/-- One iteration of the `handleClient` loop after a frame has been parsed:
dispatch, write the reply, then the loop's own write-command check, which
reads `respObj.Array[0]` without a bounds check — `none` models the Go
index-out-of-range panic (which kills the whole process) on a frame whose
`Array` field is empty or nil. -/
def handleClientStep (fuel : Nat) (conn : Nat) (now : Int) (frame : RESPv)
    (s : ServerState) : Option (RESPv × List Char × ServerState) :=
  let h := processCommand fuel conn now frame s
  match (respItems frame).head? with
  | none => none
  | some first =>
      if isWriteCommand (respString first) && !h.2.2.isReplica then
        some (h.1, h.2.1,
          IncrementOffset h.2.2 (((Marshal h.1).length + (h.2.1).length : Nat) : Int))
      else some (h.1, h.2.1, h.2.2)

/-- A fresh connection session (`getClientState` allocates the zero struct). -/
def initialClient : ClientState := ⟨false, []⟩

/-- Run a sequence of parsed frames through `processCommand` on one
connection. -/
def runCommands (fuel : Nat) (conn : Nat) (now : Int) (s : ServerState)
    (frames : List RESPv) : ServerState :=
  frames.foldl (fun st f => (processCommand fuel conn now f st).2.2) s


/-! ## Replica-side propagation loop (`connectToMaster`, src/app/main.go)

After the handshake the driver reads frames from the primary.  Processed
frames (known commands and GETACK frames) have their byte lengths appended
to `commandHistory`; a GETACK frame first sets the local offset to the sum
of the history so far (the bytes consumed BEFORE this GETACK), then the
`REPLCONF` handler builds the `REPLCONF ACK <offset>` reply, which is the
only thing ever written back to the primary.  Invalid frames and unknown
commands are skipped without being counted, as in the source. -/

structure ReplicaDriverState where
  srv : ServerState
  history : List Nat
  outputs : List (List Char)

/-- The `isGetAck` test of the propagation loop: an array of length at least
3 whose first two elements are the bulk strings `REPLCONF` and `GETACK`
(case-insensitive); the third element is not inspected. -/
def isGetAckFrame (frame : RESPv) : Bool :=
  match respItems frame with
  | a0 :: a1 :: _ :: _ =>
      isBulkType a0 && decide (toUpperStr (respString a0) = "REPLCONF") &&
      (isBulkType a1 && decide (toUpperStr (respString a1) = "GETACK"))
  | _ => false

/-- One iteration of the propagation loop for a parsed frame. -/
def replicaStep (fuel : Nat) (conn : Nat) (now : Int) (d : ReplicaDriverState)
    (frame : RESPv) : ReplicaDriverState :=
  if !(isArrayType frame) || (respItems frame).isEmpty then d
  else
    let bytesCount := (Marshal frame).length
    if !(isGetAckFrame frame) then
      match respItems frame with
      | [] => d
      | first :: args =>
          if !(isBulkType first) then d
          else
            let cmdName := toUpperStr (respString first)
            if !(registryNames.contains cmdName) then d
            else
              { d with srv := (runHandler fuel cmdName args conn now d.srv).2.2,
                       history := d.history ++ [bytesCount] }
    else
      let totalBytes : Int := ((d.history.sum : Nat) : Int)
      let d1 : ReplicaDriverState :=
        { d with history := d.history ++ [bytesCount],
                 srv := { d.srv with offset := totalBytes } }
      match respItems frame with
      | first :: args =>
          let cmdName := toUpperStr (respString first)
          if !(registryNames.contains cmdName) then d1
          else
            { d1 with srv := (runHandler fuel cmdName args conn now d1.srv).2.2,
                      outputs := d1.outputs ++ [Marshal (runHandler fuel cmdName args conn now d1.srv).1] }
      | [] => d1

/-- Run the propagation loop over a list of parsed frames. -/
def runReplica (fuel : Nat) (conn : Nat) (now : Int) (d : ReplicaDriverState)
    (frames : List RESPv) : ReplicaDriverState :=
  frames.foldl (replicaStep fuel conn now) d

/-- Driver state right after the handshake: `local_offset := 0`, empty
history, nothing written yet. -/
def initialReplicaDriver (st : Store) : ReplicaDriverState :=
  { srv := { store := st, client := initialClient, offset := 0, replicas := [],
             propagated := [], isReplica := true, replid := "R",
             dir := "./", dbfilename := "dump.rdb" },
    history := [], outputs := [] }

/-- The wire form of the `REPLCONF ACK <n>` reply. -/
def ackReply (n : Int) : RESPv :=
  .array [.bulk "REPLCONF", .bulk "ACK", .bulk (String.mk (intToChars n))]

/-- Total byte length of the encodings of a list of frames. -/
def sumFrameBytes (frames : List RESPv) : Nat :=
  (frames.map (fun f => (Marshal f).length)).sum

/-- A frame the propagation loop counts into `commandHistory`: a non-empty
array that is either a GETACK frame or starts with a bulk string naming a
registered command. -/
def handledFrame (frame : RESPv) : Bool :=
  match respItems frame with
  | [] => false
  | first :: _ =>
      isArrayType frame &&
        (isGetAckFrame frame ||
         (isBulkType first && registryNames.contains (toUpperStr (respString first))))

/-! ## RDB reader (src/app/rdb_parser.go)

The file is a byte list; `now` is the load instant in nanoseconds.  The
reader returns the updated store and `some` error message on failure (the
store keeps whatever was inserted before the failure, as the Go code
mutates the shared store as it goes). -/

/-- Signed reading of one little-endian byte (Go `int8`). -/
def sint8 (b : Nat) : Int := if b % 256 < 128 then (b % 256 : Nat) else (b % 256 : Nat) - 256

/-- Signed reading of two little-endian bytes (Go `int16`). -/
def sint16le (b0 b1 : Nat) : Int :=
  let v := b0 % 256 + 256 * (b1 % 256)
  if v < 2 ^ 15 then (v : Int) else (v : Int) - 2 ^ 16

/-- Signed reading of four little-endian bytes (Go `int32`). -/
def sint32le (b0 b1 b2 b3 : Nat) : Int :=
  let v := b0 % 256 + 256 * (b1 % 256) + 65536 * (b2 % 256) + 16777216 * (b3 % 256)
  if v < 2 ^ 31 then (v : Int) else (v : Int) - 2 ^ 32

/-- Go conversion of a signed value to `uint64` (two's complement). -/
def toUint64 (z : Int) : Nat := (z % 2 ^ 64).toNat

/-- Go conversion of a `uint64` to `int64` (two's complement). -/
def toInt64 (m : Nat) : Int :=
  if m % 2 ^ 64 < 2 ^ 63 then ((m % 2 ^ 64 : Nat) : Int)
  else ((m % 2 ^ 64 : Nat) : Int) - 2 ^ 64

/-- `readLength`: the RDB length encoding (top two bits select the form;
form `11` holds the special integer encodings, whose signed value is
converted to `uint64` as the Go code does). -/
def readLength (bytes : List Nat) : Option (Nat × List Nat) :=
  match bytes with
  | [] => none
  | b :: rest =>
      let form := b / 64 % 4
      if form = 0 then some (b % 64, rest)
      else if form = 1 then
        match rest with
        | second :: rest2 => some ((b % 64) * 256 + second % 256, rest2)
        | [] => none
      else if form = 2 then
        match rest with
        | b0 :: b1 :: b2 :: b3 :: rest2 =>
            some (16777216 * (b0 % 256) + 65536 * (b1 % 256) + 256 * (b2 % 256) + b3 % 256,
              rest2)
        | _ => none
      else
        let encoding := b % 64
        if encoding = 0 then
          match rest with
          | v :: rest2 => some (toUint64 (sint8 v), rest2)
          | [] => none
        else if encoding = 1 then
          match rest with
          | b0 :: b1 :: rest2 => some (toUint64 (sint16le b0 b1), rest2)
          | _ => none
        else if encoding = 2 then
          match rest with
          | b0 :: b1 :: b2 :: b3 :: rest2 => some (toUint64 (sint32le b0 b1 b2 b3), rest2)
          | _ => none
        else none

/-- `readString`: either a special integer encoding rendered as decimal
text, or a length-prefixed run of raw bytes. -/
def readString (bytes : List Nat) : Option (String × List Nat) :=
  match bytes with
  | [] => none
  | b :: rest =>
      if b / 64 % 4 = 3 then
        let encoding := b % 64
        if encoding = 0 then
          match rest with
          | v :: rest2 => some (String.mk (intToChars (sint8 v)), rest2)
          | [] => none
        else if encoding = 1 then
          match rest with
          | b0 :: b1 :: rest2 => some (String.mk (intToChars (sint16le b0 b1)), rest2)
          | _ => none
        else if encoding = 2 then
          match rest with
          | b0 :: b1 :: b2 :: b3 :: rest2 =>
              some (String.mk (intToChars (sint32le b0 b1 b2 b3)), rest2)
          | _ => none
        else none
      else
        match readLength (b :: rest) with
        | none => none
        | some (length, rest2) =>
            if rest2.length < length then none
            else some (String.mk ((rest2.take length).map Char.ofNat), rest2.drop length)

/-- `parseKeyValuePair`: a typed key/value following an expiry opcode.  The
expiry instant is never the zero `time.Time` here, so the Go `IsZero`
branch is always the timed one: past expiries are dropped, future ones are
inserted with the remaining duration. -/
def parseKeyValuePair (bytes : List Nat) (store : Store) (now expiryTime : Int) :
    Except String (Store × List Nat) :=
  match bytes with
  | [] => .error "error reading value type"
  | valueType :: rest =>
      if valueType ≠ 0 then .error "unsupported value type"
      else
        match readString rest with
        | none => .error "error reading key"
        | some (key, rest2) =>
            match readString rest2 with
            | none => .error "error reading string value"
            | some (value, rest3) =>
                let duration := expiryTime - now
                if duration > 0 then .ok (store.Set key (.str value) duration now, rest3)
                else .ok (store, rest3)

/-- The opcode loop of `ParseRDB`.  Fuel is the remaining input length;
every iteration consumes at least the opcode byte. -/
def rdbLoop (fuel : Nat) (bytes : List Nat) (store : Store) (now : Int) :
    Store × Option String :=
  match fuel, bytes with
  | _, [] => (store, none)
  | 0, _ :: _ => (store, some "out of fuel")
  | f + 1, typeByte :: rest =>
      if typeByte = 0xFF then (store, none)
      else if typeByte = 0xFE then
        match readLength rest with
        | none => (store, some "error reading database number")
        | some (_, rest2) => rdbLoop f rest2 store now
      else if typeByte = 0xFB then
        match readLength rest with
        | none => (store, some "error reading hash table size")
        | some (_, rest2) =>
            match readLength rest2 with
            | none => (store, some "error reading expire hash table size")
            | some (_, rest3) => rdbLoop f rest3 store now
      else if typeByte = 0xFD then
        match rest with
        | b0 :: b1 :: b2 :: b3 :: rest2 =>
            let seconds := b0 % 256 + 256 * (b1 % 256) + 65536 * (b2 % 256) +
              16777216 * (b3 % 256)
            let expiryTime : Int := (seconds : Int) * 1000000000
            match parseKeyValuePair rest2 store now expiryTime with
            | .error e => (store, some e)
            | .ok (store2, rest3) => rdbLoop f rest3 store2 now
        | _ => (store, some "error reading expire time")
      else if typeByte = 0xFC then
        match rest with
        | b0 :: b1 :: b2 :: b3 :: b4 :: b5 :: b6 :: b7 :: rest2 =>
            let ms := b0 % 256 + 256 * (b1 % 256) + 65536 * (b2 % 256) +
              16777216 * (b3 % 256) + 4294967296 * (b4 % 256) +
              1099511627776 * (b5 % 256) + 281474976710656 * (b6 % 256) +
              72057594037927936 * (b7 % 256)
            let expiryTime : Int := toInt64 ms * 1000000
            match parseKeyValuePair rest2 store now expiryTime with
            | .error e => (store, some e)
            | .ok (store2, rest3) => rdbLoop f rest3 store2 now
        | _ => (store, some "error reading expire time ms")
      else if typeByte = 0xFA then
        match readString rest with
        | none => (store, some "error reading AUX key")
        | some (_, rest2) =>
            match readString rest2 with
            | none => (store, some "error reading AUX value")
            | some (_, rest3) => rdbLoop f rest3 store now
      else
        if typeByte ≠ 0 then (store, some "unsupported value type")
        else
          match readString rest with
          | none => (store, some "error reading key")
          | some (key, rest2) =>
              match readString rest2 with
              | none => (store, some "error reading value")
              | some (value, rest3) => rdbLoop f rest3 (store.Set key (.str value) 0 now) now

/-- `ParseRDB` (src/app/rdb_parser.go): read the 9-byte signature, compare
only its FIRST FIVE bytes against `REDIS`, then run the opcode loop. -/
def ParseRDB (bytes : List Nat) (store : Store) (now : Int) : Store × Option String :=
  if bytes.length < 9 then (store, some "failed to read RDB signature")
  else if bytes.take 5 ≠ [82, 69, 68, 73, 83] then (store, some "invalid RDB signature")
  else rdbLoop bytes.length (bytes.drop 9) store now

/-! ## Decimal round-trip lemmas -/

theorem digitChar_toNat {m : Nat} (h : m < 10) : (digitChar m).toNat = 48 + m := by
  interval_cases m <;> decide

theorem isDigitCh_digitChar {m : Nat} (h : m < 10) : isDigitCh (digitChar m) = true := by
  interval_cases m <;> decide

theorem natToCharsCore_digits :
    ∀ fuel n, n < 10 ^ fuel → ∀ c ∈ natToCharsCore fuel n, isDigitCh c = true := by
  intro fuel
  induction fuel with
  | zero => intro n hn c hc; simp [natToCharsCore] at hc
  | succ f ih =>
    intro n hn c hc
    rw [natToCharsCore] at hc
    by_cases h : n < 10
    · rw [if_pos h] at hc
      rw [List.mem_singleton] at hc
      subst hc; exact isDigitCh_digitChar h
    · rw [if_neg h] at hc
      rcases List.mem_append.mp hc with hc | hc
      · refine ih (n / 10) ?_ c hc
        rw [Nat.div_lt_iff_lt_mul (by omega)]
        calc n < 10 ^ (f + 1) := hn
        _ = 10 ^ f * 10 := by ring
      · rw [List.mem_singleton] at hc
        subst hc; exact isDigitCh_digitChar (Nat.mod_lt _ (by omega))

theorem lt_ten_pow_succ_self (n : Nat) : n < 10 ^ (n + 1) := by
  calc n < 10 ^ n := Nat.lt_pow_self (by omega) n
  _ ≤ 10 ^ (n + 1) := Nat.pow_le_pow_right (by omega) (by omega)

theorem natToChars_digits (n : Nat) : ∀ c ∈ natToChars n, isDigitCh c = true :=
  natToCharsCore_digits (n + 1) n (lt_ten_pow_succ_self n)

theorem natToChars_ne_nil (n : Nat) : natToChars n ≠ [] := by
  rw [natToChars, natToCharsCore]
  by_cases h : n < 10
  · rw [if_pos h]; simp
  · rw [if_neg h]; simp

theorem charsToNat_append_digit (xs : List Char) (c : Char) :
    charsToNat (xs ++ [c]) = 10 * charsToNat xs + (c.toNat - 48) := by
  simp [charsToNat, List.foldl_append, Nat.mul_comm]

theorem charsToNat_natToCharsCore :
    ∀ fuel n, n < 10 ^ fuel → charsToNat (natToCharsCore fuel n) = n := by
  intro fuel
  induction fuel with
  | zero => intro n hn; interval_cases n; simp [natToCharsCore, charsToNat]
  | succ f ih =>
    intro n hn
    rw [natToCharsCore]
    by_cases h : n < 10
    · rw [if_pos h]
      simp [charsToNat, digitChar_toNat h]
    · rw [if_neg h]
      have hdiv : n / 10 < 10 ^ f := by
        rw [Nat.div_lt_iff_lt_mul (by omega)]
        calc n < 10 ^ (f + 1) := hn
        _ = 10 ^ f * 10 := by ring
      rw [charsToNat_append_digit, ih (n / 10) hdiv,
        digitChar_toNat (Nat.mod_lt _ (by omega))]
      omega

theorem charsToNat_natToChars (n : Nat) : charsToNat (natToChars n) = n :=
  charsToNat_natToCharsCore (n + 1) n (lt_ten_pow_succ_self n)

theorem parseNatDigits_natToChars (n : Nat) : parseNatDigits (natToChars n) = some n := by
  have hne := natToChars_ne_nil n
  have hd := natToChars_digits n
  simp [parseNatDigits, hne, List.all_eq_true.mpr hd, charsToNat_natToChars]

theorem digit_ne_of_mem_natToChars {n : Nat} {c : Char} (hc : c ∈ natToChars n) :
    c ≠ '\r' ∧ c ≠ '\n' ∧ c ≠ '+' ∧ c ≠ '-' := by
  have := natToChars_digits n c hc
  simp only [isDigitCh, Bool.and_eq_true, decide_eq_true_eq] at this
  refine ⟨?_, ?_, ?_, ?_⟩ <;> (intro h; subst h; simp_all)

theorem parseInt64_intToChars {z : Int} (h₁ : -(2 ^ 63) ≤ z) (h₂ : z ≤ 2 ^ 63 - 1) :
    parseInt64 (intToChars z) = some z := by
  by_cases hz : z < 0
  · have habs : ((z.natAbs : Int)) = -z := by omega
    simp only [intToChars, hz, if_true, parseInt64]
    rw [if_neg (show ('-' : Char) ≠ '+' by decide)]
    simp only [parseInt64Neg, parseNatDigits_natToChars]
    have hle : ((z.natAbs : Nat) : Int) ≤ 2 ^ 63 := by omega
    rw [if_pos hle]
    congr 1
    omega
  · have hz' : (z.toNat : Int) = z := by omega
    simp only [intToChars, hz, if_false]
    obtain ⟨c, cs, hcons⟩ : ∃ c cs, natToChars z.toNat = c :: cs := by
      cases hh : natToChars z.toNat with
      | nil => exact absurd hh (natToChars_ne_nil _)
      | cons c cs => exact ⟨c, cs, rfl⟩
    have hcne := digit_ne_of_mem_natToChars (n := z.toNat) (c := c) (by rw [hcons]; simp)
    rw [hcons]
    simp only [parseInt64, if_neg hcne.2.2.1, if_neg hcne.2.2.2]
    rw [← hcons]
    simp only [parseInt64Pos, parseNatDigits_natToChars]
    rw [if_pos (by omega), hz']

/-! ## Parser/encoder round-trip (claim C4 support) -/

theorem readLine_append (line rest : List Char) (h : ∀ c ∈ line, c ≠ '\r') :
    readLine (line ++ '\r' :: '\n' :: rest) = some (line, rest) := by
  induction line with
  | nil => simp [readLine]
  | cons c cs ih =>
    have hc : c ≠ '\r' := h c (by simp)
    have ih' := ih (fun d hd => h d (by simp [hd]))
    simp only [List.cons_append, readLine, if_neg hc, List.append_eq, ih']

theorem String.mk_data_eq (s : String) : String.mk s.data = s := rfl

theorem nodes_pos (v : RESPv) : 1 ≤ nodes v := by
  cases v <;> simp only [nodes] <;> omega

theorem nodes_le_nodesList_cons (v : RESPv) (vs : List RESPv) :
    nodes v ≤ nodesList (v :: vs) := by
  simp only [nodesList]; omega

theorem parseInt64_natToChars (n : Nat) (h : (n : Int) ≤ 2 ^ 63 - 1) :
    parseInt64 (natToChars n) = some ((n : Nat) : Int) := by
  have h0 : ¬ ((n : Int) < 0) := by omega
  have := parseInt64_intToChars (z := (n : Int)) (by omega) h
  rw [intToChars, if_neg h0, Int.toNat_natCast] at this
  exact this

theorem natToChars_no_cr (n : Nat) : ∀ c ∈ natToChars n, c ≠ '\r' :=
  fun c hc => (digit_ne_of_mem_natToChars hc).1

theorem intToChars_no_cr (z : Int) : ∀ c ∈ intToChars z, c ≠ '\r' := by
  intro c hc
  rw [intToChars] at hc
  by_cases hz : z < 0
  · rw [if_pos hz] at hc
    rcases List.mem_cons.mp hc with hc | hc
    · subst hc; decide
    · exact (digit_ne_of_mem_natToChars hc).1
  · rw [if_neg hz] at hc
    exact (digit_ne_of_mem_natToChars hc).1

theorem wf_payload_no_cr {s : String}
    (h : s.data.all (fun c => c ≠ '\r' && c ≠ '\n') = true) : ∀ c ∈ s.data, c ≠ '\r' := by
  intro c hc
  have := List.all_eq_true.mp h c hc
  simp only [Bool.and_eq_true, decide_eq_true_eq] at this
  exact this.1

/-- Key round-trip induction: with fuel at least the structural size, the
parser inverts the encoder, both for single values and for array element
lists. -/
theorem Parse_Marshal_aux (fuel : Nat) :
    (∀ v rest, wfRESP v = true → nodes v ≤ fuel →
      Parse fuel (Marshal v ++ rest) = some (v, rest)) ∧
    (∀ items rest, wfRESPList items = true → nodesList items ≤ fuel →
      ParseItems fuel items.length (MarshalList items ++ rest) = some (items, rest)) := by
  induction fuel with
  | zero =>
    constructor
    · intro v rest _ hn
      have := nodes_pos v
      omega
    · intro items rest _ hn
      cases items with
      | nil => simp [MarshalList, ParseItems]
      | cons v vs =>
        have := nodes_pos v
        simp only [nodesList] at hn
        omega
  | succ f ih =>
    have P : ∀ v rest, wfRESP v = true → nodes v ≤ f + 1 →
        Parse (f + 1) (Marshal v ++ rest) = some (v, rest) := by
      intro v rest hwf hn
      cases v with
      | simple s =>
        rw [wfRESP] at hwf
        have hline : readLine (s.data ++ '\r' :: '\n' :: rest) = some (s.data, rest) :=
          readLine_append _ _ (wf_payload_no_cr hwf)
        simp [Marshal, Parse, crlf, hline]
      | err s =>
        rw [wfRESP] at hwf
        have hline : readLine (s.data ++ '\r' :: '\n' :: rest) = some (s.data, rest) :=
          readLine_append _ _ (wf_payload_no_cr hwf)
        simp [Marshal, Parse, crlf, hline]
      | integer n =>
        rw [wfRESP, decide_eq_true_eq] at hwf
        have hline : readLine (intToChars n ++ '\r' :: '\n' :: rest) =
            some (intToChars n, rest) :=
          readLine_append _ _ (intToChars_no_cr n)
        simp [Marshal, Parse, crlf, hline, parseInt64_intToChars hwf.1 hwf.2]
      | bulk s =>
        rw [wfRESP, decide_eq_true_eq] at hwf
        have hline : readLine (natToChars s.data.length ++
            '\r' :: '\n' :: (s.data ++ '\r' :: '\n' :: rest)) =
            some (natToChars s.data.length, s.data ++ '\r' :: '\n' :: rest) :=
          readLine_append _ _ (natToChars_no_cr _)
        have harr : Marshal (.bulk s) ++ rest =
            '$' :: (natToChars s.data.length ++
              '\r' :: '\n' :: (s.data ++ '\r' :: '\n' :: rest)) := by
          simp [Marshal, crlf]
        rw [harr, Parse]
        rw [if_neg (show ('$' : Char) ≠ '+' by decide),
          if_neg (show ('$' : Char) ≠ '-' by decide),
          if_neg (show ('$' : Char) ≠ ':' by decide), if_pos rfl]
        have hlen : ¬ ((s.data.length : Int) = -1) := by omega
        have hneg : ¬ ((s.data.length : Int) < 0) := by omega
        have hfit : ¬ ((s.data ++ '\r' :: '\n' :: rest).length <
            ((s.data.length : Int)).toNat) := by
          simp [Int.toNat_natCast]
        simp only [hline, parseInt64_natToChars _ hwf, hlen, hneg, hfit, if_false,
          Int.toNat_natCast, List.drop_left, List.take_left]
        simp
      | nullBulk =>
        have : Marshal .nullBulk ++ rest = '$' :: '-' :: '1' :: '\r' :: '\n' :: rest := by
          simp [Marshal, crlf]
        rw [this]
        simp [Parse, readLine, parseInt64, parseInt64Neg, parseNatDigits, charsToNat, isDigitCh]
      | nullArray =>
        have : Marshal .nullArray ++ rest = '*' :: '-' :: '1' :: '\r' :: '\n' :: rest := by
          simp [Marshal, crlf]
        rw [this]
        simp [Parse, readLine, parseInt64, parseInt64Neg, parseNatDigits, charsToNat, isDigitCh]
      | zero => simp [wfRESP] at hwf
      | array items =>
        rw [wfRESP, Bool.and_eq_true, decide_eq_true_eq] at hwf
        rw [nodes] at hn
        have hline : readLine (natToChars items.length ++
            '\r' :: '\n' :: (MarshalList items ++ rest)) =
            some (natToChars items.length, MarshalList items ++ rest) :=
          readLine_append _ _ (natToChars_no_cr _)
        have harr : Marshal (.array items) ++ rest =
            '*' :: (natToChars items.length ++ '\r' :: '\n' :: (MarshalList items ++ rest)) := by
          simp [Marshal, crlf]
        rw [harr]
        rw [Parse]
        rw [if_neg (show ('*' : Char) ≠ '+' by decide),
          if_neg (show ('*' : Char) ≠ '-' by decide),
          if_neg (show ('*' : Char) ≠ ':' by decide),
          if_neg (show ('*' : Char) ≠ '$' by decide), if_pos rfl]
        have hlen : ¬ ((items.length : Int) = -1) := by omega
        have hneg : ¬ ((items.length : Int) < 0) := by omega
        have hrec : ParseItems f items.length (MarshalList items ++ rest) =
            some (items, rest) := ih.2 items rest hwf.2 (by omega)
        simp only [hline, parseInt64_natToChars _ hwf.1, hlen, hneg, if_false,
          Int.toNat_natCast, hrec]
    refine ⟨P, ?_⟩
    intro items
    induction items with
    | nil => intro rest _ _; simp [MarshalList, ParseItems]
    | cons v vs ihl =>
      intro rest hwf hn
      rw [wfRESPList, Bool.and_eq_true] at hwf
      rw [nodesList] at hn
      have h1 : nodes v ≤ f + 1 := by omega
      have h2 : nodesList vs ≤ f + 1 := by
        have := nodes_pos v
        omega
      have hstep : MarshalList (v :: vs) ++ rest = Marshal v ++ (MarshalList vs ++ rest) := by
        simp [MarshalList]
      rw [hstep, List.length_cons, ParseItems]
      simp only [P v _ hwf.1 h1, ihl _ hwf.2 h2]

/-- Round-trip: with fuel `nodes v`, parsing the encoding of a well-formed
value returns the value and consumes exactly its encoding. -/
theorem Parse_Marshal (v : RESPv) (rest : List Char) (hwf : wfRESP v = true) :
    Parse (nodes v) (Marshal v ++ rest) = some (v, rest) :=
  (Parse_Marshal_aux (nodes v)).1 v rest hwf le_rfl


/-! ## Association list helpers -/

theorem alGet_alSet_self {α : Type} (l : List (String × α)) (k : String) (v : α) :
    alGet (alSet l k v) k = some v := by
  induction l with
  | nil => simp [alGet, alSet]
  | cons kv rest ih =>
    by_cases h : kv.1 = k
    · simp [alSet, alGet, h]
    · simp only [alSet, h, if_false]
      simpa [alGet, h] using ih

theorem alGet_alDel_self {α : Type} (l : List (String × α)) (k : String) :
    alGet (alDel l k) k = none := by
  induction l with
  | nil => simp [alGet, alDel]
  | cons kv rest ih =>
    by_cases h : kv.1 = k
    · simpa [alDel, h] using ih
    · simp only [alDel, h, if_false]
      simpa [alGet, h] using ih

/-! ## Claim C8: expired keys are absent to every reader -/

/-- C8: for every key whose stored entry carries an expiry instant `e`,
every read operation (`Get`, `GetStream`, `Exists`, `Keys`, `GetType`)
performed at any time strictly after `e` reports the key as absent,
independently of whether the background reaper has run. -/
theorem C8_expired_reads_absent (st : Store) (k : String) (e t : Int)
    (hexp : alGet st.expiryMap k = some e) (ht : e < t) :
    st.Get k t = none ∧ st.GetStream k t = none ∧ st.Exists k t = false ∧
    k ∉ st.Keys t ∧ st.GetType k t = "none" := by
  have ht' : t > e := ht
  have hget : st.Get k t = none := by
    simp only [Store.Get, hexp]
    rw [if_pos ht']
  have hgets : st.GetStream k t = none := by
    simp only [Store.GetStream, hexp]
    rw [if_pos ht']
  have hex : st.Exists k t = false := by
    simp only [Store.Exists, hexp]
    cases halg : alGet st.data k with
    | none => rfl
    | some v => rw [if_pos ht']
  refine ⟨hget, hgets, hex, ?_, ?_⟩
  · intro hk
    simp only [Store.Keys, List.mem_filter] at hk
    rcases hk with ⟨-, hpred⟩
    rw [hexp] at hpred
    simp only [decide_eq_true_eq] at hpred
    exact hpred ht'
  · simp [Store.GetType, hex]

/-- C8 witness: a concrete expired key is invisible to all five readers. -/
theorem C8_expired_reads_absent_witness :
    (100 : Int) < 101 ∧
    ((Store.mk [("k", .str "v")] [("k", 100)]).Get "k" 101 = none ∧
     (Store.mk [("k", .str "v")] [("k", 100)]).GetStream "k" 101 = none ∧
     (Store.mk [("k", .str "v")] [("k", 100)]).Exists "k" 101 = false ∧
     "k" ∉ (Store.mk [("k", .str "v")] [("k", 100)]).Keys 101 ∧
     (Store.mk [("k", .str "v")] [("k", 100)]).GetType "k" 101 = "none") :=
  ⟨by norm_num,
   C8_expired_reads_absent (Store.mk [("k", .str "v")] [("k", 100)]) "k" 100 101
     (by decide) (by norm_num)⟩

/-! ## Claim C10: INCR stores the new value with no TTL -/

/-- C10: INCR on a key holding an integer string and carrying an expiry
leaves the key persistent: both the expired branch (absent read, stores
`"1"`) and the live branch (stores the incremented value) call `Set` with
expiry 0, which removes the existing expiry entry. -/
theorem C10_incr_clears_expiry (st : Store) (k v : String) (e now : Int) (n : Int)
    (hv : alGet st.data k = some (.str v)) (he : alGet st.expiryMap k = some e)
    (hn : parseInt64 v.data = some n) :
    alGet (incrCommand [.bulk k] st now).2.expiryMap k = none ∧
    (∃ m : Int,
      alGet (incrCommand [.bulk k] st now).2.data k = some (.str (String.mk (intToChars m)))) := by
  by_cases hexp : now > e
  · have hget : st.Get k now = none := by
      simp only [Store.Get, he]
      rw [if_pos hexp]
    simp only [incrCommand, respString, hget]
    constructor
    · simpa [Store.Set] using alGet_alDel_self st.expiryMap k
    · refine ⟨1, ?_⟩
      have h1 : String.mk (intToChars 1) = "1" := by decide
      rw [h1]
      simpa [Store.Set] using alGet_alSet_self st.data k (.str "1")
  · have hget : st.Get k now = some v := by
      simp only [Store.Get, he, hv]
      rw [if_neg hexp]
    simp only [incrCommand, respString, hget, hn]
    constructor
    · simpa [Store.Set] using alGet_alDel_self st.expiryMap k
    · exact ⟨wrap64 (n + 1),
        by simpa [Store.Set] using
          alGet_alSet_self st.data k (.str (String.mk (intToChars (wrap64 (n + 1)))))⟩

/-- C10 witness: INCR of a live integer key with an expiry. -/
theorem C10_incr_clears_expiry_witness :
    parseInt64 ("41" : String).data = some 41 ∧
    (alGet (incrCommand [.bulk "k"] (Store.mk [("k", .str "41")] [("k", 1000)]) 500).2.expiryMap
        "k" = none ∧
     ∃ m : Int,
       alGet (incrCommand [.bulk "k"] (Store.mk [("k", .str "41")] [("k", 1000)]) 500).2.data
         "k" = some (.str (String.mk (intToChars m)))) :=
  ⟨by decide,
   C10_incr_clears_expiry (Store.mk [("k", .str "41")] [("k", 1000)]) "k" "41" 1000 500 41
     (by decide) (by decide) (by decide)⟩

/-! ## Claim C4: RESP encode/decode round-trip -/

/-- C4: for every well-formed RESP value of the five wire forms (simple
string or error with CR/LF-free payload, integer, bulk string, array,
including both nulls), parsing the `Marshal` output returns the value and
consumes exactly the marshalled bytes, leaving any following input intact. -/
theorem C4_resp_roundtrip (v : RESPv) (rest : List Char) (hwf : wfRESP v = true) :
    Parse (nodes v) (Marshal v ++ rest) = some (v, rest) :=
  Parse_Marshal v rest hwf

/-- C4 witness: a nested value exercising all five forms and both nulls
round-trips in front of trailing input. -/
theorem C4_resp_roundtrip_witness :
    wfRESP (RESPv.array [.simple "OK", .err "ERR x", .integer (-42), .bulk "a\r\nb",
      .nullBulk, .nullArray, .array []]) = true ∧
    Parse (nodes (RESPv.array [.simple "OK", .err "ERR x", .integer (-42), .bulk "a\r\nb",
        .nullBulk, .nullArray, .array []]))
      (Marshal (RESPv.array [.simple "OK", .err "ERR x", .integer (-42), .bulk "a\r\nb",
        .nullBulk, .nullArray, .array []]) ++ ['+']) =
      some (RESPv.array [.simple "OK", .err "ERR x", .integer (-42), .bulk "a\r\nb",
        .nullBulk, .nullArray, .array []], ['+']) :=
  ⟨by decide,
   C4_resp_roundtrip (RESPv.array [.simple "OK", .err "ERR x", .integer (-42), .bulk "a\r\nb",
     .nullBulk, .nullArray, .array []]) ['+'] (by decide)⟩



/-! ## Claim C6: RDB header verification -/

/-- C6 counterexample: the header bytes spell `REDIS0042`, which differs
from `REDIS0011` in its last two bytes, yet the load succeeds (no error):
the reader compares only the first five bytes. -/
theorem C6_header_counterexample :
    ([82, 69, 68, 73, 83, 48, 48, 52, 50] : List Nat) ≠
      [82, 69, 68, 73, 83, 48, 48, 49, 49] ∧
    (ParseRDB ([82, 69, 68, 73, 83, 48, 48, 52, 50] ++ [0xFF]) (Store.mk [] []) 0).2 = none := by
  constructor
  · decide
  · rfl

/-- C6 amended: the reader verifies only the first five header bytes
(`REDIS`); whenever those differ (or the file is shorter than the 9-byte
signature), the load fails with an error before any key is inserted. -/
theorem C6_header_check (bytes : List Nat) (store : Store) (now : Int)
    (h : bytes.take 5 ≠ [82, 69, 68, 73, 83]) :
    (ParseRDB bytes store now).1 = store ∧ (ParseRDB bytes store now).2.isSome = true := by
  unfold ParseRDB
  by_cases hlen : bytes.length < 9
  · rw [if_pos hlen]
    exact ⟨rfl, rfl⟩
  · rw [if_neg hlen, if_pos h]
    exact ⟨rfl, rfl⟩

/-- C6 witness: a file starting `XEDIS…` is rejected with the store
untouched. -/
theorem C6_header_check_witness :
    ([88, 69, 68, 73, 83, 48, 48, 49, 49, 0xFF] : List Nat).take 5 ≠ [82, 69, 68, 73, 83] ∧
    ((ParseRDB [88, 69, 68, 73, 83, 48, 48, 49, 49, 0xFF] (Store.mk [] []) 0).1 =
        Store.mk [] [] ∧
     (ParseRDB [88, 69, 68, 73, 83, 48, 48, 49, 49, 0xFF] (Store.mk [] []) 0).2.isSome = true) :=
  ⟨by decide, C6_header_check [88, 69, 68, 73, 83, 48, 48, 49, 49, 0xFF] (Store.mk [] []) 0
    (by decide)⟩

/-! ## Claim C1: master offset and propagation on a primary write -/

/-- C1: evaluating the dispatcher at `SET foo bar` on a primary with one
registered replica.  The original command frame is 31 bytes and is indeed
broadcast verbatim to the replica, but `master_offset` grows by 10 — the
5-byte `+OK` reply counted once in `processCommand` and once more in the
`handleClient` loop — not by the 31-byte frame length once. -/
theorem C1_offset_counts_reply_twice :
    (Marshal (RESPv.array [.bulk "SET", .bulk "foo", .bulk "bar"])).length = 31 ∧
    (Marshal (RESPv.simple "OK")).length = 5 ∧
    (handleClientStep 1 7 100 (RESPv.array [.bulk "SET", .bulk "foo", .bulk "bar"])
        { store := Store.mk [] [], client := initialClient, offset := 0,
          replicas := [(7, 0)], propagated := [], isReplica := false,
          replid := "R", dir := "./", dbfilename := "dump.rdb" }).map
      (fun r => (r.2.2.offset, r.2.2.propagated)) =
      some (10, [(7, Marshal (RESPv.array [.bulk "SET", .bulk "foo", .bulk "bar"]))]) := by
  refine ⟨by decide, by decide, ?_⟩
  rfl

/-! ## Claim C3: non-command frames crash the connection loop -/

/-- C3: `processCommand` does reply with a RESP error to a frame that is
not a non-empty array (a simple string, an integer, an empty array), but
the `handleClient` loop then reads `respObj.Array[0]` without a bounds
check, which panics (index out of range) and kills the process — the
connection does not remain open. -/
theorem C3_invalid_frame_panics :
    (processCommand 1 7 100 (RESPv.simple "PING")
        { store := Store.mk [] [], client := initialClient, offset := 0,
          replicas := [], propagated := [], isReplica := false,
          replid := "R", dir := "./", dbfilename := "dump.rdb" }).1 =
      RESPv.err "ERR invalid command format" ∧
    (processCommand 1 7 100 (RESPv.integer 5)
        { store := Store.mk [] [], client := initialClient, offset := 0,
          replicas := [], propagated := [], isReplica := false,
          replid := "R", dir := "./", dbfilename := "dump.rdb" }).1 =
      RESPv.err "ERR invalid command format" ∧
    (processCommand 1 7 100 (RESPv.array [])
        { store := Store.mk [] [], client := initialClient, offset := 0,
          replicas := [], propagated := [], isReplica := false,
          replid := "R", dir := "./", dbfilename := "dump.rdb" }).1 =
      RESPv.err "ERR empty command" ∧
    (handleClientStep 1 7 100 (RESPv.simple "PING")
        { store := Store.mk [] [], client := initialClient, offset := 0,
          replicas := [], propagated := [], isReplica := false,
          replid := "R", dir := "./", dbfilename := "dump.rdb" }).isNone = true ∧
    (handleClientStep 1 7 100 (RESPv.integer 5)
        { store := Store.mk [] [], client := initialClient, offset := 0,
          replicas := [], propagated := [], isReplica := false,
          replid := "R", dir := "./", dbfilename := "dump.rdb" }).isNone = true ∧
    (handleClientStep 1 7 100 (RESPv.array [])
        { store := Store.mk [] [], client := initialClient, offset := 0,
          replicas := [], propagated := [], isReplica := false,
          replid := "R", dir := "./", dbfilename := "dump.rdb" }).isNone = true := by
  refine ⟨rfl, rfl, rfl, rfl, rfl, rfl⟩



/-! ## Claim C7: SET option semantics -/

theorem scan_ex (s : String) (rest : List RESPv) (e : Int) (b1 b2 : Bool) :
    scanSetOpts (.bulk "EX" :: .bulk s :: rest) e b1 b2 =
      (match parseInt64 s.data with
       | some seconds =>
           if seconds ≤ 0 then .error "ERR value is not an integer or out of range"
           else scanSetOpts rest (wrap64 (seconds * 1000000000)) b1 b2
       | none => .error "ERR value is not an integer or out of range") := by
  rw [scanSetOpts]
  rfl

theorem scan_px (s : String) (rest : List RESPv) (e : Int) (b1 b2 : Bool) :
    scanSetOpts (.bulk "PX" :: .bulk s :: rest) e b1 b2 =
      (match parseInt64 s.data with
       | some ms =>
           if ms ≤ 0 then .error "ERR value is not an integer or out of range"
           else scanSetOpts rest (wrap64 (ms * 1000000)) b1 b2
       | none => .error "ERR value is not an integer or out of range") := by
  rw [scanSetOpts]
  rfl

theorem scan_nx (rest : List RESPv) (e : Int) (b1 b2 : Bool) :
    scanSetOpts (.bulk "NX" :: rest) e b1 b2 =
      (if b2 then .error "ERR syntax error" else scanSetOpts rest e true b2) := by
  cases rest with
  | nil => rfl
  | cons a l => rfl

theorem scan_xx (rest : List RESPv) (e : Int) (b1 b2 : Bool) :
    scanSetOpts (.bulk "XX" :: rest) e b1 b2 =
      (if b1 then .error "ERR syntax error" else scanSetOpts rest e b1 true) := by
  cases rest with
  | nil => rfl
  | cons a l => rfl

theorem hasNX_ex (s : String) (rest : List SetOpt) : hasNX (.ex s :: rest) = hasNX rest := by
  simp [hasNX]

theorem hasNX_px (s : String) (rest : List SetOpt) : hasNX (.px s :: rest) = hasNX rest := by
  simp [hasNX]

theorem hasNX_nx (rest : List SetOpt) : hasNX (.nx :: rest) = true := by
  simp [hasNX]

theorem hasNX_xx (rest : List SetOpt) : hasNX (.xx :: rest) = hasNX rest := by
  simp [hasNX]

theorem hasXX_ex (s : String) (rest : List SetOpt) : hasXX (.ex s :: rest) = hasXX rest := by
  simp [hasXX]

theorem hasXX_px (s : String) (rest : List SetOpt) : hasXX (.px s :: rest) = hasXX rest := by
  simp [hasXX]

theorem hasXX_nx (rest : List SetOpt) : hasXX (.nx :: rest) = hasXX rest := by
  simp [hasXX]

theorem hasXX_xx (rest : List SetOpt) : hasXX (.xx :: rest) = true := by
  simp [hasXX]

/-- Characterization of the option scan on grammar-conforming, value-valid
option lists: it fails with `ERR syntax error` exactly when both flags end
up set, and otherwise reports the accumulated flags. -/
theorem scanSetOpts_flatten : ∀ (opts : List SetOpt) (e : Int) (b1 b2 : Bool),
    (∀ o ∈ opts, validOpt o = true) → ¬(b1 = true ∧ b2 = true) →
    ((((b1 || hasNX opts) && (b2 || hasXX opts)) = true →
      scanSetOpts (flattenOpts opts) e b1 b2 = .error "ERR syntax error") ∧
     (((b1 || hasNX opts) && (b2 || hasXX opts)) = false →
      ∃ e2, scanSetOpts (flattenOpts opts) e b1 b2 =
        .ok (e2, b1 || hasNX opts, b2 || hasXX opts))) := by
  intro opts
  induction opts with
  | nil =>
    intro e b1 b2 _ hnxx
    constructor
    · intro hc
      simp only [hasNX, hasXX, List.any_nil, Bool.or_false, Bool.and_eq_true] at hc
      exact absurd ⟨hc.1, hc.2⟩ hnxx
    · intro _
      exact ⟨e, by simp [flattenOpts, scanSetOpts, hasNX, hasXX]⟩
  | cons o rest ih =>
    intro e b1 b2 hval hnxx
    have hvrest : ∀ x ∈ rest, validOpt x = true :=
      fun x hx => hval x (List.mem_cons_of_mem _ hx)
    cases o with
    | ex s =>
      have hv := hval (.ex s) (by simp)
      simp only [validOpt] at hv
      cases hps : parseInt64 s.data with
      | none => rw [hps] at hv; exact absurd hv (by simp)
      | some n =>
        rw [hps] at hv
        simp only [decide_eq_true_eq] at hv
        rw [hasNX_ex, hasXX_ex]
        simp only [flattenOpts]
        rw [scan_ex]
        simp only [hps]
        rw [if_neg (by omega : ¬ n ≤ 0)]
        exact ih (wrap64 (n * 1000000000)) b1 b2 hvrest hnxx
    | px s =>
      have hv := hval (.px s) (by simp)
      simp only [validOpt] at hv
      cases hps : parseInt64 s.data with
      | none => rw [hps] at hv; exact absurd hv (by simp)
      | some n =>
        rw [hps] at hv
        simp only [decide_eq_true_eq] at hv
        rw [hasNX_px, hasXX_px]
        simp only [flattenOpts]
        rw [scan_px]
        simp only [hps]
        rw [if_neg (by omega : ¬ n ≤ 0)]
        exact ih (wrap64 (n * 1000000)) b1 b2 hvrest hnxx
    | nx =>
      rw [hasNX_nx, hasXX_nx]
      simp only [flattenOpts]
      rw [scan_nx]
      cases b2 with
      | true =>
        rw [if_pos rfl]
        constructor
        · intro _; rfl
        · intro hc; simp at hc
      | false =>
        rw [if_neg (by simp)]
        have h' := ih e true false hvrest (by simp)
        simp only [Bool.or_true, Bool.true_or, Bool.false_or, Bool.true_and] at h' ⊢
        exact h'
    | xx =>
      rw [hasNX_xx, hasXX_xx]
      simp only [flattenOpts]
      rw [scan_xx]
      cases b1 with
      | true =>
        rw [if_pos rfl]
        constructor
        · intro _; rfl
        · intro hc; simp at hc
      | false =>
        rw [if_neg (by simp)]
        have h' := ih e false true hvrest (by simp)
        simp only [Bool.or_true, Bool.true_or, Bool.false_or, Bool.true_and,
          Bool.and_true] at h' ⊢
        exact h'

/-- With some invalid `EX`/`PX` value in the list, the scan always fails. -/
theorem scanSetOpts_flatten_invalid : ∀ (opts : List SetOpt) (e : Int) (b1 b2 : Bool),
    (∃ o ∈ opts, validOpt o = false) →
    ∃ msg, scanSetOpts (flattenOpts opts) e b1 b2 = .error msg := by
  intro opts
  induction opts with
  | nil =>
    intro e b1 b2 h
    simp at h
  | cons o rest ih =>
    intro e b1 b2 h
    cases o with
    | ex s =>
      cases hps : parseInt64 s.data with
      | none =>
          exact ⟨"ERR value is not an integer or out of range",
            by simp only [flattenOpts]; rw [scan_ex]; simp only [hps]⟩
      | some n =>
        by_cases hn : n ≤ 0
        · exact ⟨"ERR value is not an integer or out of range",
            by simp only [flattenOpts]; rw [scan_ex]; simp only [hps]; rw [if_pos hn]⟩
        · have hrest : ∃ o ∈ rest, validOpt o = false := by
            rcases h with ⟨o, hmem, hfalse⟩
            rcases List.mem_cons.mp hmem with rfl | hmem2
            · simp only [validOpt, hps, decide_eq_true_eq] at hfalse
              simp at hfalse
              omega
            · exact ⟨o, hmem2, hfalse⟩
          rcases ih (wrap64 (n * 1000000000)) b1 b2 hrest with ⟨msg, hmsg⟩
          exact ⟨msg,
            by simp only [flattenOpts]; rw [scan_ex]; simp only [hps]; rw [if_neg hn]; exact hmsg⟩
    | px s =>
      cases hps : parseInt64 s.data with
      | none =>
          exact ⟨"ERR value is not an integer or out of range",
            by simp only [flattenOpts]; rw [scan_px]; simp only [hps]⟩
      | some n =>
        by_cases hn : n ≤ 0
        · exact ⟨"ERR value is not an integer or out of range",
            by simp only [flattenOpts]; rw [scan_px]; simp only [hps]; rw [if_pos hn]⟩
        · have hrest : ∃ o ∈ rest, validOpt o = false := by
            rcases h with ⟨o, hmem, hfalse⟩
            rcases List.mem_cons.mp hmem with rfl | hmem2
            · simp only [validOpt, hps, decide_eq_true_eq] at hfalse
              simp at hfalse
              omega
            · exact ⟨o, hmem2, hfalse⟩
          rcases ih (wrap64 (n * 1000000)) b1 b2 hrest with ⟨msg, hmsg⟩
          exact ⟨msg,
            by simp only [flattenOpts]; rw [scan_px]; simp only [hps]; rw [if_neg hn]; exact hmsg⟩
    | nx =>
      cases b2 with
      | true => exact ⟨"ERR syntax error", by simp only [flattenOpts]; rw [scan_nx]; rw [if_pos rfl]⟩
      | false =>
        have hrest : ∃ o ∈ rest, validOpt o = false := by
          rcases h with ⟨o, hmem, hfalse⟩
          rcases List.mem_cons.mp hmem with rfl | hmem2
          · simp [validOpt] at hfalse
          · exact ⟨o, hmem2, hfalse⟩
        rcases ih e true false hrest with ⟨msg, hmsg⟩
        exact ⟨msg, by simp only [flattenOpts]; rw [scan_nx]; rw [if_neg (by simp)]; exact hmsg⟩
    | xx =>
      cases b1 with
      | true => exact ⟨"ERR syntax error", by simp only [flattenOpts]; rw [scan_xx]; rw [if_pos rfl]⟩
      | false =>
        have hrest : ∃ o ∈ rest, validOpt o = false := by
          rcases h with ⟨o, hmem, hfalse⟩
          rcases List.mem_cons.mp hmem with rfl | hmem2
          · simp [validOpt] at hfalse
          · exact ⟨o, hmem2, hfalse⟩
        rcases ih e false true hrest with ⟨msg, hmsg⟩
        exact ⟨msg, by simp only [flattenOpts]; rw [scan_xx]; rw [if_neg (by simp)]; exact hmsg⟩

theorem setCommand_cons (k v : String) (opts' : List RESPv) (st : Store) (now : Int) :
    setCommand (.bulk k :: .bulk v :: opts') st now =
      (match scanSetOpts opts' 0 false false with
       | .error msg => (.err msg, st)
       | .ok (expiry, nxf, xxf) =>
           if nxf && st.Exists k now then (.nullBulk, st)
           else if !nxf && (xxf && !(st.Exists k now)) then (.nullBulk, st)
           else (.simple "OK", st.Set k (.str v) expiry now)) := rfl

/-- C7: `SET key value [EX s | PX ms] [NX | XX]` semantics over
grammar-conforming option lists: (1) both `NX` and `XX` present, in either
order and position, is a syntax error leaving the store unchanged; (2) an
`EX` or `PX` whose argument is non-positive or not an integer yields an
error leaving the store unchanged; (3) `NX` on an existing key and (4)
`XX` on a missing key return the null bulk string leaving the store
unchanged; and (5) every other `SET` stores the value and replies `+OK`. -/
theorem C7_set_option_semantics (k v : String) (opts : List SetOpt) (st : Store) (now : Int) :
    ((∀ o ∈ opts, validOpt o = true) → hasNX opts = true → hasXX opts = true →
      setCommand (.bulk k :: .bulk v :: flattenOpts opts) st now = (.err "ERR syntax error", st)) ∧
    ((∃ o ∈ opts, validOpt o = false) →
      ∃ msg, setCommand (.bulk k :: .bulk v :: flattenOpts opts) st now = (.err msg, st)) ∧
    ((∀ o ∈ opts, validOpt o = true) → hasNX opts = true → hasXX opts = false →
      st.Exists k now = true →
      setCommand (.bulk k :: .bulk v :: flattenOpts opts) st now = (.nullBulk, st)) ∧
    ((∀ o ∈ opts, validOpt o = true) → hasXX opts = true → hasNX opts = false →
      st.Exists k now = false →
      setCommand (.bulk k :: .bulk v :: flattenOpts opts) st now = (.nullBulk, st)) ∧
    ((∀ o ∈ opts, validOpt o = true) → ¬(hasNX opts = true ∧ hasXX opts = true) →
      ¬(hasNX opts = true ∧ st.Exists k now = true) →
      ¬(hasXX opts = true ∧ st.Exists k now = false) →
      ∃ st2, setCommand (.bulk k :: .bulk v :: flattenOpts opts) st now = (.simple "OK", st2) ∧
        alGet st2.data k = some (.str v)) := by
  refine ⟨?_, ?_, ?_, ?_, ?_⟩
  · intro hval hnx hxx
    have h := (scanSetOpts_flatten opts 0 false false hval (by simp)).1
      (by simp [hnx, hxx])
    rw [setCommand_cons]
    simp only [h]
  · intro hinv
    rcases scanSetOpts_flatten_invalid opts 0 false false hinv with ⟨msg, hmsg⟩
    refine ⟨msg, ?_⟩
    rw [setCommand_cons]
    simp only [hmsg]
  · intro hval hnx hxx hex
    rcases (scanSetOpts_flatten opts 0 false false hval (by simp)).2
      (by simp [hnx, hxx]) with ⟨e2, he2⟩
    rw [setCommand_cons]
    simp only [he2, hnx, hxx, hex]
    simp
  · intro hval hxx hnx hex
    rcases (scanSetOpts_flatten opts 0 false false hval (by simp)).2
      (by simp [hnx, hxx]) with ⟨e2, he2⟩
    rw [setCommand_cons]
    simp only [he2, hnx, hxx, hex]
    simp
  · intro hval hconf hnxex hxxex
    have hcond : ((false || hasNX opts) && (false || hasXX opts)) = false := by
      cases hnx : hasNX opts <;> cases hxx : hasXX opts <;> simp_all
    rcases (scanSetOpts_flatten opts 0 false false hval (by simp)).2 hcond with ⟨e2, he2⟩
    rw [setCommand_cons]
    simp only [he2]
    have hfirst : (((false || hasNX opts) && st.Exists k now) = false) := by
      cases hnx : hasNX opts <;> cases hex : st.Exists k now <;> simp_all
    have hsecond :
        ((!(false || hasNX opts) && ((false || hasXX opts) && !(st.Exists k now))) = false) := by
      cases hnx : hasNX opts <;> cases hxx : hasXX opts <;> cases hex : st.Exists k now <;>
        simp_all
    rw [hfirst]
    simp only [Bool.false_eq_true, if_false]
    rw [hsecond]
    simp only [Bool.false_eq_true, if_false]
    exact ⟨st.Set k (.str v) e2 now, rfl,
      by simpa [Store.Set] using alGet_alSet_self st.data k (.str v)⟩

/-- C7 witness: `SET k v NX XX` on an empty store is a syntax error, and
`SET k v PX 50` stores the value with `+OK`. -/
theorem C7_set_option_semantics_witness :
    hasNX [SetOpt.nx, SetOpt.xx] = true ∧ hasXX [SetOpt.nx, SetOpt.xx] = true ∧
    setCommand [.bulk "k", .bulk "v", .bulk "NX", .bulk "XX"] (Store.mk [] []) 0 =
      (.err "ERR syntax error", Store.mk [] []) ∧
    (∃ st2, setCommand [.bulk "k", .bulk "v", .bulk "PX", .bulk "50"] (Store.mk [] []) 0 =
      (.simple "OK", st2) ∧ alGet st2.data "k" = some (.str "v")) := by
  refine ⟨by decide, by decide, ?_, ?_⟩
  · exact (C7_set_option_semantics "k" "v" [SetOpt.nx, SetOpt.xx] (Store.mk [] []) 0).1
      (by decide) (by decide) (by decide)
  · exact (C7_set_option_semantics "k" "v" [SetOpt.px "50"] (Store.mk [] []) 0).2.2.2.2
      (by decide) (by decide) (by decide) (by decide)


/-! ## Claim C2: stream ID validation in XADD -/

theorem splitOnDash_append_dashfree (p1 p2 : List Char) (h : ∀ c ∈ p1, c ≠ '-') :
    splitOnDash (p1 ++ '-' :: p2) = p1 :: splitOnDash p2 := by
  induction p1 with
  | nil => simp [splitOnDash]
  | cons c cs ih =>
    have hc : c ≠ '-' := h c (by simp)
    have ih' := ih (fun d hd => h d (by simp [hd]))
    simp only [List.cons_append, splitOnDash, if_neg hc, List.append_eq, ih']

theorem splitOnDash_dashfree (p : List Char) (h : ∀ c ∈ p, c ≠ '-') :
    splitOnDash p = [p] := by
  induction p with
  | nil => rfl
  | cons c cs ih =>
    have hc : c ≠ '-' := h c (by simp)
    have ih' := ih (fun d hd => h d (by simp [hd]))
    simp only [splitOnDash, if_neg hc, ih']

theorem digits_dashfree {p : List Char} (h : p.all isDigitCh = true) : ∀ c ∈ p, c ≠ '-' := by
  intro c hc
  have := List.all_eq_true.mp h c hc
  simp only [isDigitCh, Bool.and_eq_true, decide_eq_true_eq] at this
  intro hcontra
  subst hcontra
  simp_all

theorem digits_ne_star {p : List Char} (h : p.all isDigitCh = true) : ∀ c ∈ p, c ≠ '*' := by
  intro c hc
  have := List.all_eq_true.mp h c hc
  simp only [isDigitCh, Bool.and_eq_true, decide_eq_true_eq] at this
  intro hcontra
  subst hcontra
  simp_all

theorem parseInt64_ne_nil {p : List Char} {n : Int} (h : parseInt64 p = some n) : p ≠ [] := by
  intro hp
  subst hp
  simp [parseInt64] at h

/-- The decimal rendering of a nonzero integer is not the single digit 0. -/
theorem intToChars_eq_zero {z : Int} (h : intToChars z = ['0']) : z = 0 := by
  by_cases hz : z < 0
  · rw [intToChars, if_pos hz] at h
    have := List.head_eq_of_cons_eq h
    simp at this
  · rw [intToChars, if_neg hz] at h
    have := charsToNat_natToChars z.toNat
    rw [h] at this
    have h0 : charsToNat ['0'] = 0 := by decide
    rw [h0] at this
    omega

/-- The id rebuilt by the auto-sequence branches, `"{ms}-{seq}"`, is never
the text `0-0` when `ms` is nonzero. -/
theorem rebuilt_id_ne_zero (ms seq : Int) (hms : ms ≠ 0) :
    String.mk (intToChars ms ++ '-' :: intToChars seq) ≠ "0-0" := by
  intro h
  have hdata : intToChars ms ++ '-' :: intToChars seq = ['0', '-', '0'] := by
    have := congrArg String.data h
    simpa using this
  by_cases hz : ms < 0
  · rw [intToChars, if_pos hz] at hdata
    simp only [List.cons_append, List.cons.injEq] at hdata
    exact absurd hdata.1 (by decide)
  · rw [intToChars, if_neg hz] at hdata
    cases hnc : natToChars ms.toNat with
    | nil => exact natToChars_ne_nil _ hnc
    | cons c t =>
      rw [hnc] at hdata
      simp only [List.cons_append, List.cons.injEq] at hdata
      obtain ⟨hc, hrest⟩ := hdata
      cases t with
      | nil =>
        have : natToChars ms.toNat = ['0'] := by rw [hnc, hc]
        have h0 := charsToNat_natToChars ms.toNat
        rw [this] at h0
        have : charsToNat ['0'] = 0 := by decide
        omega
      | cons d t2 =>
        simp only [List.cons_append, List.cons.injEq] at hrest
        have hd : d ∈ natToChars ms.toNat := by rw [hnc]; simp
        exact absurd hrest.1 (digit_ne_of_mem_natToChars hd).2.2.2

/-- On the explicit `ms-seq` form (dash-separated digit runs), a successful
`parseStreamID` yields exactly those numbers with the auto flag clear, and
certifies both the `0-0` gate and the strictly-greater-than-tail gate. -/
theorem parseStreamID_explicit (id lastID : String) (now : Int) (p1 p2 : List Char)
    (ms seq : Int) (r : Int × Int × Bool)
    (hid : id.data = p1 ++ '-' :: p2)
    (hd1 : p1.all isDigitCh = true) (hd2 : p2.all isDigitCh = true)
    (hp1 : parseInt64 p1 = some ms) (hp2 : parseInt64 p2 = some seq)
    (hok : parseStreamID id lastID now = .ok r) :
    r = (ms, seq, false) ∧ ¬(ms = 0 ∧ seq = 0) ∧
    (∀ q1 q2 lms lseq, splitOnDash lastID.data = [q1, q2] →
      parseInt64 q1 = some lms → parseInt64 q2 = some lseq → lastID ≠ "" →
      ¬(ms < lms ∨ (ms = lms ∧ seq ≤ lseq))) := by
  have hstar : ¬(id = "*") := by
    intro h
    have : id.data = ['*'] := by subst h; rfl
    rw [hid] at this
    have hmem : '-' ∈ p1 ++ '-' :: p2 := by simp
    rw [this] at hmem
    simp at hmem
  have hp2ne : p2 ≠ [] := parseInt64_ne_nil hp2
  have hdash : hasDashStar id = false := by
    rw [hasDashStar, hid, List.reverse_append]
    have : ('-' :: p2).reverse = p2.reverse ++ ['-'] := by simp
    rw [this]
    obtain ⟨c, t, hct⟩ : ∃ c t, p2.reverse = c :: t := by
      cases hpr : p2.reverse with
      | nil => exact absurd (by simpa using hpr) hp2ne
      | cons c t => exact ⟨c, t, rfl⟩
    rw [hct]
    have hcd : c ≠ '*' :=
      digits_ne_star hd2 c (by rw [← List.mem_reverse, hct]; simp)
    cases t with
    | nil => simp [hcd]
    | cons d t2 => simp [hcd]
  rw [parseStreamID, if_neg hstar, hdash] at hok
  simp only [Bool.false_eq_true, if_false] at hok
  rw [hid, splitOnDash_append_dashfree p1 p2 (digits_dashfree hd1),
    splitOnDash_dashfree p2 (digits_dashfree hd2)] at hok
  simp only [hp1, hp2] at hok
  by_cases h00 : ms = 0 ∧ seq = 0
  · rw [if_pos h00] at hok
    simp at hok
  · rw [if_neg h00] at hok
    by_cases hl : lastID ≠ ""
    · rw [if_pos hl] at hok
      rcases hsp : splitOnDash lastID.data with _ | ⟨q1, _ | ⟨q2, _ | ⟨q3, qrest⟩⟩⟩
      · rw [hsp] at hok; simp at hok
      · rw [hsp] at hok; simp at hok
      · simp only [hsp] at hok
        cases hq1 : parseInt64 q1 with
        | none => simp only [hq1] at hok; simp at hok
        | some lms =>
          simp only [hq1] at hok
          cases hq2 : parseInt64 q2 with
          | none => simp only [hq2] at hok; simp at hok
          | some lseq =>
            simp only [hq2] at hok
            by_cases hgate : ms < lms ∨ (ms = lms ∧ seq ≤ lseq)
            · rw [if_pos hgate] at hok
              simp at hok
            · rw [if_neg hgate] at hok
              simp only [Except.ok.injEq] at hok
              refine ⟨hok.symm, h00, ?_⟩
              intro q1' q2' lms' lseq' hsp' hq1' hq2' _
              simp only [List.cons.injEq, and_true] at hsp'
              obtain ⟨h1, h2⟩ := hsp'
              subst h1
              subst h2
              rw [hq1] at hq1'
              rw [hq2] at hq2'
              simp only [Option.some.injEq] at hq1' hq2'
              subst hq1'
              subst hq2'
              exact hgate
      · rw [hsp] at hok; simp at hok
    · rw [if_neg hl] at hok
      simp only [Except.ok.injEq] at hok
      exact ⟨hok.symm, h00, fun _ _ _ _ _ _ _ hne => absurd (by simpa using hne) hl⟩


/-- On the explicit `ms-seq` form, a non-error XADD certifies the `0-0`
gate and that `(ms, seq)` is lexicographically above the tail entry. -/
theorem xadd_explicit_tail_guard (st : Store) (now : Int) (k id : String)
    (fieldArgs : List RESPv) (p1 p2 : List Char) (ms seq : Int)
    (hid : id.data = p1 ++ '-' :: p2)
    (hd1 : p1.all isDigitCh = true) (hd2 : p2.all isDigitCh = true)
    (hp1 : parseInt64 p1 = some ms) (hp2 : parseInt64 p2 = some seq)
    (hok : isErr (xaddCommand (.bulk k :: .bulk id :: fieldArgs) st now).1 = false) :
    ¬(ms = 0 ∧ seq = 0) ∧
    (∀ le, ((st.GetStream k now).getD []).getLast? = some le →
      ∀ q1 q2 lms lseq, splitOnDash le.id.data = [q1, q2] →
        parseInt64 q1 = some lms → parseInt64 q2 = some lseq →
        (lms < ms ∨ (lms = ms ∧ lseq < seq))) := by
  rw [xaddCommand] at hok
  simp only [List.length_cons] at hok
  by_cases h3 : fieldArgs.length + 1 + 1 < 3
  · rw [if_pos h3] at hok
    simp [arityErr, isErr] at hok
  · rw [if_neg h3] at hok
    by_cases hmod : (fieldArgs.length + 1 + 1 - 2) % 2 ≠ 0
    · rw [if_pos hmod] at hok
      simp [arityErr, isErr] at hok
    · rw [if_neg hmod] at hok
      simp only [respString] at hok
      cases hlast : ((st.GetStream k now).getD []).getLast? with
      | none =>
        rw [hlast] at hok
        cases hps : parseStreamID id "" now with
        | error e =>
          simp only [hps] at hok
          by_cases he1 : e = "ID must be greater than 0-0"
          · rw [if_pos he1] at hok; simp [isErr] at hok
          · rw [if_neg he1] at hok
            by_cases he2 : e = "ID is not greater than last entry"
            · rw [if_pos he2] at hok; simp [isErr] at hok
            · rw [if_neg he2] at hok; simp [isErr] at hok
        | ok trip =>
          obtain ⟨ms', seq0, auto⟩ := trip
          obtain ⟨-, h00, -⟩ :=
            parseStreamID_explicit id "" now p1 p2 ms seq (ms', seq0, auto)
              hid hd1 hd2 hp1 hp2 hps
          refine ⟨h00, ?_⟩
          intro le hle
          exact absurd hle (by simp)
      | some le =>
        rw [hlast] at hok
        cases hps : parseStreamID id le.id now with
        | error e =>
          simp only [hps] at hok
          by_cases he1 : e = "ID must be greater than 0-0"
          · rw [if_pos he1] at hok; simp [isErr] at hok
          · rw [if_neg he1] at hok
            by_cases he2 : e = "ID is not greater than last entry"
            · rw [if_pos he2] at hok; simp [isErr] at hok
            · rw [if_neg he2] at hok; simp [isErr] at hok
        | ok trip =>
          obtain ⟨ms', seq0, auto⟩ := trip
          obtain ⟨-, h00, hgate⟩ :=
            parseStreamID_explicit id le.id now p1 p2 ms seq (ms', seq0, auto)
              hid hd1 hd2 hp1 hp2 hps
          refine ⟨h00, ?_⟩
          intro le' hle' q1 q2 lms lseq hsp hq1 hq2
          have hle2 : le' = le := by
            simpa using hle'.symm
          subst hle2
          have hne : le'.id ≠ "" := by
            intro h
            rw [h] at hsp
            have h2 : splitOnDash ("" : String).data = [[]] := rfl
            rw [h2] at hsp
            simp at hsp
          have := hgate q1 q2 lms lseq hsp hq1 hq2 hne
          omega


/-- Exhaustive shape of a successful `parseStreamID`: the `*` form, the
`ms-*` form, or the explicit form with the `0-0` gate passed. -/
theorem parseStreamID_ok_shape (id lastID : String) (now : Int) (r : Int × Int × Bool)
    (hok : parseStreamID id lastID now = .ok r) :
    (id = "*" ∧ r = (now, 0, true)) ∨
    (hasDashStar id = true ∧ ∃ m, parseInt64 id.data.dropLast.dropLast = some m ∧
      ((m = 0 ∧ r = (0, 1, true)) ∨ (m ≠ 0 ∧ r = (m, 0, true)))) ∨
    (∃ p1 p2 ms sq, splitOnDash id.data = [p1, p2] ∧
      parseInt64 p1 = some ms ∧ parseInt64 p2 = some sq ∧
      ¬(ms = 0 ∧ sq = 0) ∧ r = (ms, sq, false)) := by
  rw [parseStreamID] at hok
  by_cases hstar : id = "*"
  · rw [if_pos hstar] at hok
    exact Or.inl ⟨hstar, by simpa using hok.symm⟩
  · rw [if_neg hstar] at hok
    by_cases hdash : hasDashStar id = true
    · rw [if_pos hdash] at hok
      cases hpm : parseInt64 id.data.dropLast.dropLast with
      | none => simp only [hpm] at hok; simp at hok
      | some m =>
        simp only [hpm] at hok
        by_cases hm : m = 0
        · rw [if_pos hm] at hok
          refine Or.inr (Or.inl ⟨hdash, m, rfl, Or.inl ⟨hm, ?_⟩⟩)
          subst hm
          simpa using hok.symm
        · rw [if_neg hm] at hok
          exact Or.inr (Or.inl ⟨hdash, m, rfl, Or.inr ⟨hm, by simpa using hok.symm⟩⟩)
    · have hdf : hasDashStar id = false := by
        revert hdash; cases hasDashStar id <;> simp
      rw [hdf] at hok
      simp only [Bool.false_eq_true, if_false] at hok
      rcases hsd : splitOnDash id.data with _ | ⟨p1, _ | ⟨p2, _ | ⟨p3, rest⟩⟩⟩
      · simp only [hsd] at hok; simp at hok
      · simp only [hsd] at hok; simp at hok
      · simp only [hsd] at hok
        cases hpm : parseInt64 p1 with
        | none => simp only [hpm] at hok; simp at hok
        | some ms =>
          simp only [hpm] at hok
          cases hpsq : parseInt64 p2 with
          | none => simp only [hpsq] at hok; simp at hok
          | some sq =>
            simp only [hpsq] at hok
            by_cases h00 : ms = 0 ∧ sq = 0
            · rw [if_pos h00] at hok; simp at hok
            · rw [if_neg h00] at hok
              refine Or.inr (Or.inr ⟨p1, p2, ms, sq, rfl, hpm, hpsq, h00, ?_⟩)
              by_cases hl : lastID ≠ ""
              · rw [if_pos hl] at hok
                rcases hq : splitOnDash lastID.data with _ | ⟨q1, _ | ⟨q2, _ | ⟨q3, qrest⟩⟩⟩
                · simp only [hq] at hok; simp at hok
                · simp only [hq] at hok; simp at hok
                · simp only [hq] at hok
                  cases hq1 : parseInt64 q1 with
                  | none => simp only [hq1] at hok; simp at hok
                  | some lms =>
                    simp only [hq1] at hok
                    cases hq2 : parseInt64 q2 with
                    | none => simp only [hq2] at hok; simp at hok
                    | some lsq =>
                      simp only [hq2] at hok
                      by_cases hg : ms < lms ∨ (ms = lms ∧ sq ≤ lsq)
                      · rw [if_pos hg] at hok; simp at hok
                      · rw [if_neg hg] at hok
                        simpa using hok.symm
                · simp only [hq] at hok; simp at hok
              · rw [if_neg hl] at hok
                simpa using hok.symm
      · simp only [hsd] at hok; simp at hok

/-- An explicit id that passed the `0-0` gate is not the text `0-0`. -/
theorem explicit_id_ne_zero (id : String) (p1 p2 : List Char) (ms sq : Int)
    (hsd : splitOnDash id.data = [p1, p2])
    (hpm : parseInt64 p1 = some ms) (hpsq : parseInt64 p2 = some sq)
    (h00 : ¬(ms = 0 ∧ sq = 0)) : id ≠ "0-0" := by
  intro h
  subst h
  have h2 : splitOnDash ("0-0" : String).data = [['0'], ['0']] := by decide
  rw [h2] at hsd
  obtain ⟨rfl, rfl⟩ : (['0'] : List Char) = p1 ∧ (['0'] : List Char) = p2 := by
    simpa using hsd
  have e0 : parseInt64 ['0'] = some 0 := by decide
  rw [e0] at hpm hpsq
  simp only [Option.some.injEq] at hpm hpsq
  exact h00 ⟨hpm.symm, hpsq.symm⟩


/-- A non-error XADD at a positive clock appends exactly one entry whose id
is the returned bulk reply, and that id is never the text `0-0`. -/
theorem xadd_no_zero_id (st : Store) (now : Int) (k id : String) (fieldArgs : List RESPv)
    (hnow : 0 < now)
    (hok : isErr (xaddCommand (.bulk k :: .bulk id :: fieldArgs) st now).1 = false) :
    respString (xaddCommand (.bulk k :: .bulk id :: fieldArgs) st now).1 ≠ "0-0" ∧
    alGet (xaddCommand (.bulk k :: .bulk id :: fieldArgs) st now).2.data k =
      some (.stream (((st.GetStream k now).getD []) ++
        [⟨respString (xaddCommand (.bulk k :: .bulk id :: fieldArgs) st now).1,
          buildFields [] fieldArgs⟩])) := by
  rw [xaddCommand] at hok ⊢
  simp only [List.length_cons] at hok ⊢
  by_cases h3 : fieldArgs.length + 1 + 1 < 3
  · rw [if_pos h3] at hok
    simp [arityErr, isErr] at hok
  · rw [if_neg h3] at hok ⊢
    by_cases hmod : (fieldArgs.length + 1 + 1 - 2) % 2 ≠ 0
    · rw [if_pos hmod] at hok
      simp [arityErr, isErr] at hok
    · rw [if_neg hmod] at hok ⊢
      simp only [respString] at hok ⊢
      split at hok
      · rename_i e heq
        by_cases he1 : e = "ID must be greater than 0-0"
        · rw [if_pos he1] at hok; simp [isErr] at hok
        · rw [if_neg he1] at hok
          by_cases he2 : e = "ID is not greater than last entry"
          · rw [if_pos he2] at hok; simp [isErr] at hok
          · rw [if_neg he2] at hok; simp [isErr] at hok
      · rename_i a b c heq
        rcases parseStreamID_ok_shape _ _ _ _ heq with
          ⟨hstar, htrip⟩ | ⟨hdash, m, hpm, ⟨hm0, htrip⟩ | ⟨hmne, htrip⟩⟩ |
          ⟨p1, p2, ms, sq, hsd, hpm2, hpsq, h00, htrip⟩
        all_goals simp only [Prod.mk.injEq] at htrip
        all_goals obtain ⟨rfl, rfl, rfl⟩ := htrip
        · subst hstar
          rw [if_neg (show ¬((true : Bool) = true ∧ hasDashStar "*" = true) from
            fun h => by exact absurd h.2 (by decide))] at hok ⊢
          rw [if_pos (rfl : (true : Bool) = true)] at hok ⊢
          split at hok
          · simp [isErr] at hok
          · rename_i hcond
            rw [if_neg hcond]
            exact ⟨rebuilt_id_ne_zero _ 0 (by omega), alGet_alSet_self _ _ _⟩
        · subst hm0
          rw [if_pos (show (true : Bool) = true ∧ hasDashStar id = true from ⟨rfl, hdash⟩)] at hok ⊢
          rw [if_pos (rfl : (0 : Int) = 0)] at hok ⊢
          rw [if_pos (rfl : (true : Bool) = true)] at hok ⊢
          split at hok
          · simp [isErr] at hok
          · rename_i hcond
            rw [if_neg hcond]
            exact ⟨(by decide : String.mk (intToChars 0 ++ '-' :: intToChars 1) ≠ "0-0"),
              alGet_alSet_self _ _ _⟩
        · rw [if_pos (show (true : Bool) = true ∧ hasDashStar id = true from ⟨rfl, hdash⟩)] at hok ⊢
          rw [if_neg hmne] at hok ⊢
          rw [if_pos (rfl : (true : Bool) = true)] at hok ⊢
          split at hok
          · simp [isErr] at hok
          · rename_i hcond
            rw [if_neg hcond]
            exact ⟨rebuilt_id_ne_zero _ _ hmne, alGet_alSet_self _ _ _⟩
        · rw [if_neg (show ¬((false : Bool) = true ∧ hasDashStar id = true) from
            fun h => Bool.false_ne_true h.1)] at hok ⊢
          rw [if_neg (Bool.false_ne_true)] at hok ⊢
          split at hok
          · simp [isErr] at hok
          · rename_i hcond
            rw [if_neg hcond]
            exact ⟨explicit_id_ne_zero id p1 p2 _ _ hsd hpm2 hpsq h00,
              alGet_alSet_self _ _ _⟩


/-- C2 counterexample: with the stream's tail entry at id `5-5`, the
auto-sequence request `XADD s 3-*` succeeds with reply `3-0` and appends an
entry whose id `3-0` is NOT strictly greater than the tail `5-5` — the
`ms-*` branch of `parseStreamID` returns before the tail comparison, so the
claimed all-forms monotonicity guarantee fails. -/
theorem C2_xadd_tail_counterexample :
    isErr (xaddCommand [.bulk "s", .bulk "3-*", .bulk "f", .bulk "v"]
      (Store.mk [("s", .stream [⟨"5-5", [("f", "v")]⟩])] []) 100).1 = false ∧
    respString (xaddCommand [.bulk "s", .bulk "3-*", .bulk "f", .bulk "v"]
      (Store.mk [("s", .stream [⟨"5-5", [("f", "v")]⟩])] []) 100).1 = "3-0" ∧
    (alGet (xaddCommand [.bulk "s", .bulk "3-*", .bulk "f", .bulk "v"]
        (Store.mk [("s", .stream [⟨"5-5", [("f", "v")]⟩])] []) 100).2.data "s").map
      (fun v => match v with
        | .stream es => es.map (fun e => e.id)
        | _ => []) = some ["5-5", "3-0"] ∧
    splitStreamID "5-5" = some (5, 5) ∧ splitStreamID "3-0" = some (3, 0) ∧
    ¬((5 : Int) < 3 ∨ ((5 : Int) = 3 ∧ (5 : Int) < 0)) := by
  refine ⟨by decide, by decide, by decide, by decide, by decide, by decide⟩

/-- C2 (amended): XADD's strictly-greater-than-tail validation holds for the
EXPLICIT `ms-seq` form only (the `ms-*` and `*` forms skip the tail check):
(1) a non-error XADD with an explicit dash-separated all-digit id certifies
that `(ms, seq)` is lexicographically strictly above the tail entry's id and
is not `0-0`; (2) at any positive clock, a non-error XADD of any form
appends exactly one entry whose id is the bulk reply and is never the text
`0-0`. -/
theorem C2_stream_id_validation :
    (∀ st now k id fieldArgs p1 p2 ms seq,
      id.data = p1 ++ '-' :: p2 →
      p1.all isDigitCh = true → p2.all isDigitCh = true →
      parseInt64 p1 = some ms → parseInt64 p2 = some seq →
      isErr (xaddCommand (.bulk k :: .bulk id :: fieldArgs) st now).1 = false →
      ¬(ms = 0 ∧ seq = 0) ∧
      (∀ le, ((st.GetStream k now).getD []).getLast? = some le →
        ∀ q1 q2 lms lseq, splitOnDash le.id.data = [q1, q2] →
          parseInt64 q1 = some lms → parseInt64 q2 = some lseq →
          (lms < ms ∨ (lms = ms ∧ lseq < seq)))) ∧
    (∀ st now k id fieldArgs, (0 : Int) < now →
      isErr (xaddCommand (.bulk k :: .bulk id :: fieldArgs) st now).1 = false →
      respString (xaddCommand (.bulk k :: .bulk id :: fieldArgs) st now).1 ≠ "0-0" ∧
      alGet (xaddCommand (.bulk k :: .bulk id :: fieldArgs) st now).2.data k =
        some (.stream (((st.GetStream k now).getD []) ++
          [⟨respString (xaddCommand (.bulk k :: .bulk id :: fieldArgs) st now).1,
            buildFields [] fieldArgs⟩]))) :=
  ⟨fun st now k id fieldArgs p1 p2 ms seq h1 h2 h3 h4 h5 h6 =>
      xadd_explicit_tail_guard st now k id fieldArgs p1 p2 ms seq h1 h2 h3 h4 h5 h6,
   fun st now k id fieldArgs h1 h2 => xadd_no_zero_id st now k id fieldArgs h1 h2⟩

/-- C2 witness: instantiating the amended theorem at `XADD s 2-0 f v` on an
empty store at clock 50. -/
theorem C2_stream_id_validation_witness :
    respString (xaddCommand (.bulk "s" :: .bulk "2-0" :: [.bulk "f", .bulk "v"])
      (Store.mk [] []) 50).1 ≠ "0-0" ∧
    alGet (xaddCommand (.bulk "s" :: .bulk "2-0" :: [.bulk "f", .bulk "v"])
        (Store.mk [] []) 50).2.data "s" =
      some (.stream ((((Store.mk [] []).GetStream "s" 50).getD []) ++
        [⟨respString (xaddCommand (.bulk "s" :: .bulk "2-0" :: [.bulk "f", .bulk "v"])
            (Store.mk [] []) 50).1,
          buildFields [] [.bulk "f", .bulk "v"]⟩])) :=
  C2_stream_id_validation.2 (Store.mk [] []) 50 "s" "2-0" [.bulk "f", .bulk "v"]
    (by decide) (by decide)


/-! ## Claim C9: transaction queue invariant -/

theorem IncrementOffset_client (s : ServerState) (n : Int) :
    (IncrementOffset s n).client = s.client := rfl

theorem UpdateReplicaOffset_client (s : ServerState) (conn : Nat) (off : Int) :
    (UpdateReplicaOffset s conn off).client = s.client := rfl

theorem propagateCommand_client (s : ServerState) (c : RESPv) :
    (propagateCommand s c).client = s.client := by
  rw [propagateCommand]; split <;> rfl

theorem AddReplica_client (s : ServerState) (conn : Nat) :
    (AddReplica s conn).client = s.client := by
  rw [AddReplica]; split <;> rfl

theorem multiCommand_client (args : List RESPv) (s : ServerState) :
    (multiCommand args s).2.2.client = s.client ∨
    (multiCommand args s).2.2.client = ⟨true, []⟩ ∨
    (multiCommand args s).2.2.client = ⟨false, []⟩ := by
  rw [multiCommand]
  split
  · exact Or.inl rfl
  · exact Or.inr (Or.inl rfl)

theorem discardCommand_client (args : List RESPv) (s : ServerState) :
    (discardCommand args s).2.2.client = s.client ∨
    (discardCommand args s).2.2.client = ⟨true, []⟩ ∨
    (discardCommand args s).2.2.client = ⟨false, []⟩ := by
  rw [discardCommand]
  split
  · exact Or.inl rfl
  · split
    · exact Or.inr (Or.inr rfl)
    · exact Or.inr (Or.inr rfl)

/-- One EXEC replay step leaves the client state alone or resets it, as the
supplied handler does. -/
theorem execStepWith_client
    (h : String → List RESPv → Nat → Int → ServerState → RESPv × List Char × ServerState)
    (conn : Nat) (now : Int) (cmd : RESPv) (s : ServerState)
    (hh : ∀ cn args s', (h cn args conn now s').2.2.client = s'.client ∨
      (h cn args conn now s').2.2.client = ⟨true, []⟩ ∨
      (h cn args conn now s').2.2.client = ⟨false, []⟩) :
    (execStepWith h conn now cmd s).2.client = s.client ∨
    (execStepWith h conn now cmd s).2.client = ⟨true, []⟩ ∨
    (execStepWith h conn now cmd s).2.client = ⟨false, []⟩ := by
  simp only [execStepWith]
  split
  · exact Or.inl rfl
  · split
    · exact Or.inl rfl
    · split
      · exact Or.inl rfl
      · split
        · exact Or.inl rfl
        · split
          · simp only [propagateCommand_client, IncrementOffset_client]
            exact hh _ _ _
          · exact hh _ _ _

/-- The EXEC replay loop leaves the client state alone or reset, as the
supplied handler does. -/
theorem execLoopWith_client
    (h : String → List RESPv → Nat → Int → ServerState → RESPv × List Char × ServerState)
    (conn : Nat) (now : Int) (l : List RESPv) (s : ServerState)
    (hh : ∀ cn args s', (h cn args conn now s').2.2.client = s'.client ∨
      (h cn args conn now s').2.2.client = ⟨true, []⟩ ∨
      (h cn args conn now s').2.2.client = ⟨false, []⟩) :
    (execLoopWith h conn now l s).2.client = s.client ∨
    (execLoopWith h conn now l s).2.client = ⟨true, []⟩ ∨
    (execLoopWith h conn now l s).2.client = ⟨false, []⟩ := by
  induction l generalizing s with
  | nil => exact Or.inl rfl
  | cons cmd rest ih =>
    rcases ih (execStepWith h conn now cmd s).2 with h1 | h1 | h1
    · rw [show (execLoopWith h conn now (cmd :: rest) s).2 =
          (execLoopWith h conn now rest (execStepWith h conn now cmd s).2).2 from rfl, h1]
      exact execStepWith_client h conn now cmd s hh
    · exact Or.inr (Or.inl h1)
    · exact Or.inr (Or.inr h1)

/-- The dispatcher either leaves the client state alone, enters a fresh
transaction (MULTI), or resets it (EXEC, DISCARD), provided the EXEC replay
continuation does the same. -/
theorem dispatchWith_client
    (execNest : List RESPv → ServerState → RESPv × List Char × ServerState)
    (cmdName : String) (args : List RESPv) (conn : Nat) (now : Int) (s : ServerState)
    (hexec : ∀ q s', (execNest q s').2.2.client = s'.client ∨
      (execNest q s').2.2.client = ⟨true, []⟩ ∨
      (execNest q s').2.2.client = ⟨false, []⟩) :
    (dispatchWith execNest cmdName args conn now s).2.2.client = s.client ∨
    (dispatchWith execNest cmdName args conn now s).2.2.client = ⟨true, []⟩ ∨
    (dispatchWith execNest cmdName args conn now s).2.2.client = ⟨false, []⟩ := by
  delta dispatchWith
  by_cases h1 : cmdName = "PING"
  · rw [if_pos h1]; exact Or.inl rfl
  rw [if_neg h1]
  by_cases h2 : cmdName = "ECHO"
  · rw [if_pos h2]; exact Or.inl rfl
  rw [if_neg h2]
  by_cases h3 : cmdName = "SET"
  · rw [if_pos h3]; exact Or.inl rfl
  rw [if_neg h3]
  by_cases h4 : cmdName = "GET"
  · rw [if_pos h4]; exact Or.inl rfl
  rw [if_neg h4]
  by_cases h5 : cmdName = "CONFIG"
  · rw [if_pos h5]; exact Or.inl rfl
  rw [if_neg h5]
  by_cases h6 : cmdName = "KEYS"
  · rw [if_pos h6]; exact Or.inl rfl
  rw [if_neg h6]
  by_cases h7 : cmdName = "INFO"
  · rw [if_pos h7]; exact Or.inl rfl
  rw [if_neg h7]
  by_cases h8 : cmdName = "REPLCONF"
  · rw [if_pos h8]; exact Or.inl rfl
  rw [if_neg h8]
  by_cases h9 : cmdName = "PSYNC"
  · rw [if_pos h9]; exact Or.inl rfl
  rw [if_neg h9]
  by_cases h10 : cmdName = "WAIT"
  · rw [if_pos h10]; exact Or.inl rfl
  rw [if_neg h10]
  by_cases h11 : cmdName = "TYPE"
  · rw [if_pos h11]; exact Or.inl rfl
  rw [if_neg h11]
  by_cases h12 : cmdName = "XADD"
  · rw [if_pos h12]; exact Or.inl rfl
  rw [if_neg h12]
  by_cases h13 : cmdName = "XRANGE"
  · rw [if_pos h13]; exact Or.inl rfl
  rw [if_neg h13]
  by_cases h14 : cmdName = "XREAD"
  · rw [if_pos h14]; exact Or.inl rfl
  rw [if_neg h14]
  by_cases h15 : cmdName = "INCR"
  · rw [if_pos h15]; exact Or.inl rfl
  rw [if_neg h15]
  by_cases h16 : cmdName = "MULTI"
  · rw [if_pos h16]; exact multiCommand_client args s
  rw [if_neg h16]
  by_cases h17 : cmdName = "EXEC"
  · rw [if_pos h17]
    split
    · exact Or.inl rfl
    · split
      · exact Or.inr (Or.inr rfl)
      · exact Or.elim (hexec s.client.queued
            { s with client := (⟨false, []⟩ : ClientState) })
          (fun hh1 => Or.inr (Or.inr hh1))
          (fun hh2 => hh2.elim (fun hh1 => Or.inr (Or.inl hh1))
            (fun hh1 => Or.inr (Or.inr hh1)))
  rw [if_neg h17]
  by_cases h18 : cmdName = "DISCARD"
  · rw [if_pos h18]; exact discardCommand_client args s
  rw [if_neg h18]
  exact Or.inl rfl

/-- Every handler either leaves the client state alone, enters a fresh
transaction (MULTI), or resets it (EXEC, DISCARD). -/
theorem runHandler_client (fuel : Nat) : ∀ cmdName args conn now s,
    (runHandler fuel cmdName args conn now s).2.2.client = s.client ∨
    (runHandler fuel cmdName args conn now s).2.2.client = ⟨true, []⟩ ∨
    (runHandler fuel cmdName args conn now s).2.2.client = ⟨false, []⟩ := by
  induction fuel with
  | zero =>
    intro cmdName args conn now s
    exact dispatchWith_client _ cmdName args conn now s (fun q s' => Or.inl rfl)
  | succ f ih =>
    intro cmdName args conn now s
    exact dispatchWith_client _ cmdName args conn now s
      (fun q s' => execLoopWith_client (runHandler f) conn now q s'
        (fun cn a s'' => ih cn a conn now s''))

theorem processS2_client (fuel conn : Nat) (now : Int) (cmdName : String)
    (args : List RESPv) (s : ServerState) :
    (processS2 fuel conn now cmdName args s).client =
      (runHandler fuel cmdName args conn now s).2.2.client := by
  rw [processS2]
  split
  · exact AddReplica_client _ _
  · rfl

theorem processS3_client (fuel conn : Nat) (now : Int) (cmdName : String)
    (args : List RESPv) (s : ServerState) :
    (processS3 fuel conn now cmdName args s).client =
      (runHandler fuel cmdName args conn now s).2.2.client := by
  cases args with
  | nil => exact processS2_client fuel conn now cmdName [] s
  | cons a0 rest =>
    cases rest with
    | nil => exact processS2_client fuel conn now cmdName [a0] s
    | cons a1 rest2 =>
      have hred : processS3 fuel conn now cmdName (a0 :: a1 :: rest2) s =
          (if cmdName = "REPLCONF" ∧ toUpperStr (respString a0) = "ACK" then
            match parseInt64 (respString a1).data with
            | some off =>
                UpdateReplicaOffset (processS2 fuel conn now cmdName (a0 :: a1 :: rest2) s)
                  conn off
            | none => processS2 fuel conn now cmdName (a0 :: a1 :: rest2) s
          else processS2 fuel conn now cmdName (a0 :: a1 :: rest2) s) := rfl
      rw [hred]
      by_cases hc : cmdName = "REPLCONF" ∧ toUpperStr (respString a0) = "ACK"
      · rw [if_pos hc]
        cases hp : parseInt64 (respString a1).data with
        | some off =>
          simp only [hp]
          rw [UpdateReplicaOffset_client]
          exact processS2_client fuel conn now cmdName (a0 :: a1 :: rest2) s
        | none =>
          simp only [hp]
          exact processS2_client fuel conn now cmdName (a0 :: a1 :: rest2) s
      · rw [if_neg hc]
        exact processS2_client fuel conn now cmdName (a0 :: a1 :: rest2) s

theorem processS4_client (fuel conn : Nat) (now : Int) (frame : RESPv) (cmdName : String)
    (args : List RESPv) (s : ServerState) :
    (processS4 fuel conn now frame cmdName args s).client =
      (runHandler fuel cmdName args conn now s).2.2.client := by
  rw [processS4]
  split
  · rw [propagateCommand_client, IncrementOffset_client]
    exact processS3_client fuel conn now cmdName args s
  · exact processS3_client fuel conn now cmdName args s

/-- `processCommand` preserves the invariant "queue empty when not in a
transaction". -/
theorem processCommand_clientInv (fuel conn : Nat) (now : Int) (frame : RESPv)
    (s : ServerState)
    (hs : s.client.inTransaction = false → s.client.queued = []) :
    (processCommand fuel conn now frame s).2.2.client.inTransaction = false →
    (processCommand fuel conn now frame s).2.2.client.queued = [] := by
  delta processCommand
  repeat' split
  all_goals first
    | exact hs
    | (rename_i hcond
       intro hf
       have h1 : s.client.inTransaction = false := hf
       rw [hcond.1] at h1
       exact absurd h1 (by decide))
    | (rw [show ∀ (a : RESPv) (b : List Char) (c : ServerState), (a, b, c).2.2 = c
          from fun _ _ _ => rfl]
       rw [processS4_client]
       rcases runHandler_client fuel _ _ conn now s with h1 | h1 | h1 <;> rw [h1] <;>
        first
          | exact hs
          | exact fun hf => absurd hf (by decide)
          | exact fun hf => rfl)


/-- C9: after every completed command the connection's queued-commands list
is empty whenever `inTransaction` is false — the invariant is preserved by
every `processCommand` step from any state satisfying it. -/
theorem C9_transaction_queue_invariant
    (fuel conn : Nat) (now : Int) (s : ServerState) (frames : List RESPv)
    (hs : s.client.inTransaction = false → s.client.queued = []) :
    (runCommands fuel conn now s frames).client.inTransaction = false →
    (runCommands fuel conn now s frames).client.queued = [] := by
  induction frames generalizing s with
  | nil => exact hs
  | cons f rest ih =>
    exact ih ((processCommand fuel conn now f s).2.2)
      (processCommand_clientInv fuel conn now f s hs)

/-- C9 witness: a MULTI / SET / EXEC session from a fresh connection state
ends outside a transaction with an empty queue. -/
theorem C9_transaction_queue_invariant_witness :
    ((ServerState.mk (Store.mk [] []) ⟨false, []⟩ 0 [] [] false "r" "d" "f").client.inTransaction
        = false →
      (ServerState.mk (Store.mk [] []) ⟨false, []⟩ 0 [] [] false "r" "d" "f").client.queued = []) ∧
    (runCommands 3 7 100
        (ServerState.mk (Store.mk [] []) ⟨false, []⟩ 0 [] [] false "r" "d" "f")
        [.array [.bulk "MULTI"], .array [.bulk "SET", .bulk "a", .bulk "1"],
         .array [.bulk "EXEC"]]).client.queued = [] :=
  ⟨fun _ => rfl,
   C9_transaction_queue_invariant 3 7 100
     (ServerState.mk (Store.mk [] []) ⟨false, []⟩ 0 [] [] false "r" "d" "f")
     [.array [.bulk "MULTI"], .array [.bulk "SET", .bulk "a", .bulk "1"],
      .array [.bulk "EXEC"]]
     (fun _ => rfl) (by decide)⟩


/-! ## Claim C5: replica GETACK offset accounting -/

theorem isArrayType_of_items_ne_nil {frame : RESPv} (h : respItems frame ≠ []) :
    isArrayType frame = true := by
  cases frame <;> simp_all [respItems, isArrayType]

theorem isGetAckFrame_shape {frame : RESPv} (h : isGetAckFrame frame = true) :
    ∃ a0 a1 a2 rest, respItems frame = a0 :: a1 :: a2 :: rest ∧
      isBulkType a0 = true ∧ toUpperStr (respString a0) = "REPLCONF" ∧
      isBulkType a1 = true ∧ toUpperStr (respString a1) = "GETACK" := by
  rw [isGetAckFrame] at h
  rcases hi : respItems frame with _ | ⟨a0, _ | ⟨a1, _ | ⟨a2, rest⟩⟩⟩ <;>
    simp only [hi] at h
  · simp at h
  · simp at h
  · simp at h
  · simp only [Bool.and_eq_true, decide_eq_true_eq] at h
    exact ⟨a0, a1, a2, rest, rfl, h.1.1, h.1.2, h.2.1, h.2.2⟩

/-- The `REPLCONF` dispatch is fuel-independent and touches no state. -/
theorem runHandler_replconf (fuel : Nat) (args : List RESPv) (conn : Nat) (now : Int)
    (s : ServerState) :
    runHandler fuel "REPLCONF" args conn now s =
      (replconfCommand args s.offset s.isReplica, [], s) := by
  cases fuel with
  | zero => rfl
  | succ f => rfl

/-- A handled non-GETACK frame appends its byte length to the history and
writes nothing back to the primary. -/
theorem replicaStep_nonack (fuel conn : Nat) (now : Int) (d : ReplicaDriverState)
    (frame : RESPv) (h1 : handledFrame frame = true) (h2 : isGetAckFrame frame = false) :
    (replicaStep fuel conn now d frame).history = d.history ++ [(Marshal frame).length] ∧
    (replicaStep fuel conn now d frame).outputs = d.outputs := by
  rcases hi : respItems frame with _ | ⟨first, args⟩
  · rw [handledFrame] at h1
    simp only [hi] at h1
    simp at h1
  · rw [handledFrame] at h1
    simp only [hi, h2, Bool.false_or, Bool.and_eq_true] at h1
    obtain ⟨harr, hbulk, hreg⟩ := h1
    simp only [replicaStep]
    rw [if_neg (by simp [harr, hi])]
    rw [if_pos (show (!isGetAckFrame frame) = true by rw [h2]; rfl)]
    simp only [hi]
    rw [if_neg (by simp only [hbulk]; decide)]
    rw [if_neg (by simp only [hreg]; decide)]
    exact ⟨rfl, rfl⟩

/-- `replconfCommand` on a GETACK subcommand with a non-negative offset
replies `REPLCONF ACK <offset>`. -/
theorem replconfCommand_getack (a1 : RESPv) (rest2 : List RESPv) (off : Int) (b : Bool)
    (hu1 : toUpperStr (respString a1) = "GETACK") (hoff : 0 ≤ off) :
    replconfCommand (a1 :: rest2) off b = ackReply off := by
  simp only [replconfCommand]
  rw [hu1]
  rw [if_pos (rfl : ("GETACK" : String) = "GETACK")]
  rw [if_neg (show ¬(b = true ∧ off < 0) from fun hcon =>
    absurd hcon.2 (Int.not_lt.mpr hoff))]
  rfl

/-- A GETACK frame appends its own byte length to the history but replies
with the byte total of the history BEFORE it. -/
theorem replicaStep_ack (fuel conn : Nat) (now : Int) (d : ReplicaDriverState)
    (frame : RESPv) (h2 : isGetAckFrame frame = true) :
    (replicaStep fuel conn now d frame).history = d.history ++ [(Marshal frame).length] ∧
    (replicaStep fuel conn now d frame).outputs =
      d.outputs ++ [Marshal (ackReply ((d.history.sum : Nat) : Int))] := by
  obtain ⟨a0, a1, a2, rest, hi, hb0, hu0, hb1, hu1⟩ := isGetAckFrame_shape h2
  have harr : isArrayType frame = true := isArrayType_of_items_ne_nil (by rw [hi]; simp)
  simp only [replicaStep]
  rw [if_neg (by simp [harr, hi])]
  rw [if_neg (show ¬((!isGetAckFrame frame) = true) by simp [h2])]
  simp only [hi, hu0]
  rw [if_neg (by decide)]
  rw [runHandler_replconf]
  refine ⟨rfl, ?_⟩
  rw [replconfCommand_getack a1 (a2 :: rest) ((d.history.sum : Nat) : Int)
    d.srv.isReplica hu1 (Int.natCast_nonneg _)]

/-- Running a batch of handled non-GETACK frames appends their byte lengths
to the history and writes nothing back. -/
theorem runReplica_nonack (fuel conn : Nat) (now : Int) (frames : List RESPv) :
    ∀ d : ReplicaDriverState,
    (∀ f ∈ frames, handledFrame f = true ∧ isGetAckFrame f = false) →
    (runReplica fuel conn now d frames).history =
      d.history ++ frames.map (fun f => (Marshal f).length) ∧
    (runReplica fuel conn now d frames).outputs = d.outputs := by
  induction frames with
  | nil => intro d _; exact ⟨by simp [runReplica], rfl⟩
  | cons f rest ih =>
    intro d h
    have hstep := replicaStep_nonack fuel conn now d f (h f (by simp)).1 (h f (by simp)).2
    have hrun : runReplica fuel conn now d (f :: rest) =
        runReplica fuel conn now (replicaStep fuel conn now d f) rest := rfl
    obtain ⟨ihh, iho⟩ := ih (replicaStep fuel conn now d f)
      (fun g hg => h g (by simp [hg]))
    rw [hrun]
    constructor
    · rw [ihh, hstep.1]
      simp
    · rw [iho, hstep.2]


/-- C5: on the propagation stream, a GETACK reply reports exactly the bytes
consumed BEFORE that GETACK (its own bytes excluded), and the GETACK's own
byte-length counts toward the offset reported by the next GETACK reply. -/
theorem C5_replica_getack_offsets (fuel conn : Nat) (now : Int) (st : Store)
    (pre mid : List RESPv) (g1 g2 : RESPv)
    (hpre : ∀ f ∈ pre, handledFrame f = true ∧ isGetAckFrame f = false)
    (hmid : ∀ f ∈ mid, handledFrame f = true ∧ isGetAckFrame f = false)
    (hg1 : isGetAckFrame g1 = true) (hg2 : isGetAckFrame g2 = true) :
    (runReplica fuel conn now (initialReplicaDriver st)
        (pre ++ g1 :: (mid ++ [g2]))).outputs =
      [Marshal (ackReply ((sumFrameBytes pre : Nat) : Int)),
       Marshal (ackReply
         ((sumFrameBytes pre + (Marshal g1).length + sumFrameBytes mid : Nat) : Int))] := by
  have hsplit1 : runReplica fuel conn now (initialReplicaDriver st)
      (pre ++ g1 :: (mid ++ [g2])) =
      runReplica fuel conn now
        (replicaStep fuel conn now
          (runReplica fuel conn now (initialReplicaDriver st) pre) g1)
        (mid ++ [g2]) := by
    rw [runReplica, runReplica, List.foldl_append]
    rfl
  have hsplit2 : ∀ d, runReplica fuel conn now d (mid ++ [g2]) =
      replicaStep fuel conn now (runReplica fuel conn now d mid) g2 := by
    intro d
    rw [runReplica, runReplica, List.foldl_append]
    rfl
  obtain ⟨h1h, h1o⟩ := runReplica_nonack fuel conn now pre (initialReplicaDriver st) hpre
  obtain ⟨h2h, h2o⟩ := replicaStep_ack fuel conn now
    (runReplica fuel conn now (initialReplicaDriver st) pre) g1 hg1
  obtain ⟨h3h, h3o⟩ := runReplica_nonack fuel conn now mid
    (replicaStep fuel conn now
      (runReplica fuel conn now (initialReplicaDriver st) pre) g1) hmid
  obtain ⟨h4h, h4o⟩ := replicaStep_ack fuel conn now
    (runReplica fuel conn now
      (replicaStep fuel conn now
        (runReplica fuel conn now (initialReplicaDriver st) pre) g1) mid) g2 hg2
  rw [hsplit1, hsplit2, h4o, h3o, h3h, h2o, h2h, h1o, h1h]
  have hinit_h : (initialReplicaDriver st).history = [] := rfl
  have hinit_o : (initialReplicaDriver st).outputs = [] := rfl
  rw [hinit_h, hinit_o]
  simp only [List.nil_append, List.sum_append, sumFrameBytes, List.sum_cons,
    List.sum_nil]
  simp

/-- C5 witness: SET, GETACK, SET, GETACK from the primary; the first ACK
reports 31 bytes (the SET frame only), the second 99 (SET + GETACK + SET). -/
theorem C5_replica_getack_offsets_witness :
    (runReplica 3 7 100 (initialReplicaDriver (Store.mk [] []))
        ([.array [.bulk "SET", .bulk "foo", .bulk "bar"]] ++
          .array [.bulk "REPLCONF", .bulk "GETACK", .bulk "*"] ::
          ([.array [.bulk "SET", .bulk "foo", .bulk "bar"]] ++
           [.array [.bulk "REPLCONF", .bulk "GETACK", .bulk "*"]]))).outputs =
      [Marshal (ackReply
         ((sumFrameBytes [.array [.bulk "SET", .bulk "foo", .bulk "bar"]] : Nat) : Int)),
       Marshal (ackReply
         ((sumFrameBytes [.array [.bulk "SET", .bulk "foo", .bulk "bar"]] +
           (Marshal (.array [.bulk "REPLCONF", .bulk "GETACK", .bulk "*"])).length +
           sumFrameBytes [.array [.bulk "SET", .bulk "foo", .bulk "bar"]] : Nat) : Int))] :=
  C5_replica_getack_offsets 3 7 100 (Store.mk [] [])
    [.array [.bulk "SET", .bulk "foo", .bulk "bar"]]
    [.array [.bulk "SET", .bulk "foo", .bulk "bar"]]
    (.array [.bulk "REPLCONF", .bulk "GETACK", .bulk "*"])
    (.array [.bulk "REPLCONF", .bulk "GETACK", .bulk "*"])
    (by decide) (by decide) (by decide) (by decide)

end Rego
